import Mathlib

/-!
Verification development for the ParmEd conversion engine
(`gmso/external/convert_parmed.py`): a shallow embedding of the
bidirectional structural/parameter conversion between the internal
topology data model and the external (ParmEd-style) structure model,
together with the type-deduplication and expression-matching logic.

Modelling conventions:
* Python object identity (`id(x)`) is rendered as a synthesized key:
  every raw type record lives in one of the per-kind lists of the
  external structure, and its identity is its index in that list,
  tagged with the list it came from (`PmdId`).
* sympy expressions are rendered as a small expression tree `SymExpr`;
  sympy `==` (structural equality of auto-normalized trees) is rendered
  as decidable syntactic equality.  Two source strings that sympy
  normalizes to the same tree are modelled by one and the same
  `SymExpr` constant.
* `unyt` quantities are rendered as rationals carrying the fixed unit
  the source stores them in; unit conversions that the source performs
  are explicit rational rescalings (nm to angstrom is times 10).
* Python dicts are association lists with first-match lookup; every
  dict/list access that can raise in Python is an `Except` failure.
* Fields that no claim observes (atom masses on sites, element symbol
  tags) are projected away or abstracted; this is noted locally.
-/

namespace GmsoParmed

/-! ## Symbolic expressions (the sympy layer) -/

/-- Expression trees standing for sympy expressions after parsing and
auto-normalization.  Exponents in the fixed catalog of forms are
natural numbers, matching the source.  Equality of `SymExpr` models
sympy `==` on normalized trees. -/
inductive SymExpr where
  | var (s : String)
  | num (q : ℚ)
  | add (a b : SymExpr)
  | sub (a b : SymExpr)
  | mul (a b : SymExpr)
  | div (a b : SymExpr)
  | powN (a : SymExpr) (n : ℕ)
  | cos (a : SymExpr)
deriving DecidableEq, Repr

/-- Evaluate an expression over the rationals; the cosine function is
passed as an abstract interpretation so that algebraic difference of
two trees can be witnessed for any interpretation agreeing with the
real cosine at the sample point. -/
def SymExpr.eval (v : String → ℚ) (c : ℚ → ℚ) : SymExpr → ℚ
  | .var s => v s
  | .num q => q
  | .add a b => a.eval v c + b.eval v c
  | .sub a b => a.eval v c - b.eval v c
  | .mul a b => a.eval v c * b.eval v c
  | .div a b => a.eval v c / b.eval v c
  | .powN a n => (a.eval v c) ^ n
  | .cos a => c (a.eval v c)

/-- Lennard-Jones 12-6, the single tree sympy produces both for
`4*epsilon*((sigma/r)**12 - (sigma/r)**6)` (forward converter, line 267)
and for `4*epsilon*(-sigma**6/r**6 + sigma**12/r**12)` (reverse check,
line 650): sympy distributes integer powers over products, so the two
strings normalize to one tree. -/
def ljExpr : SymExpr :=
  .mul (.mul (.num 4) (.var ("epsilon")))
    (.sub (.div (.powN (.var ("sigma")) 12) (.powN (.var ("r")) 12))
          (.div (.powN (.var ("sigma")) 6) (.powN (.var ("r")) 6)))

/-- Harmonic bond `0.5 * k * (r-r_eq)**2` (BondType default). -/
def harmonicBondExpr : SymExpr :=
  .mul (.mul (.num (1/2)) (.var ("k"))) (.powN (.sub (.var ("r")) (.var ("r_eq"))) 2)

/-- Harmonic angle `0.5 * k * (theta-theta_eq)**2` (AngleType default). -/
def harmonicAngleExpr : SymExpr :=
  .mul (.mul (.num (1/2)) (.var ("k"))) (.powN (.sub (.var ("theta")) (.var ("theta_eq"))) 2)

/-- The body `1 + cos(n*phi - phi_eq)` shared by the periodic torsion
forms. -/
def periodicBody : SymExpr :=
  .add (.num 1) (.cos (.sub (.mul (.var ("n")) (.var ("phi"))) (.var ("phi_eq"))))

/-- Periodic torsion `k * (1 + cos(n*phi - phi_eq))`.
Modelled from the spec: this is the DihedralType default expression
(`gmso.DihedralType._default_potential_expr()`, used by the forward
converter at line 397 but defined outside the packaged sources); the
spec lists exactly this form in the reverse-conversion catalog, and the
in-repo reference-XML tests use the same unsquared periodic form. -/
def periodicTorsionExpr : SymExpr := .mul (.var ("k")) periodicBody

/-- The tree of `parse_expr("k * (1 + cos(n * phi - phi_eq))**2")`,
the expression the reverse converter compares against at line 783. -/
def periodicSquaredExpr : SymExpr := .mul (.var ("k")) (.powN periodicBody 2)

/-- Ryckaert-Bellemans torsion
`c0*cos(phi)**0 + c1*cos(phi)**1 + ... + c5*cos(phi)**5`
(lines 419-421 forward, 584-590 and 794-800 reverse: same string,
hence the same tree). -/
def rbExpr : SymExpr :=
  .add (.add (.add (.add (.add
    (.mul (.var ("c0")) (.powN (.cos (.var ("phi"))) 0))
    (.mul (.var ("c1")) (.powN (.cos (.var ("phi"))) 1)))
    (.mul (.var ("c2")) (.powN (.cos (.var ("phi"))) 2)))
    (.mul (.var ("c3")) (.powN (.cos (.var ("phi"))) 3)))
    (.mul (.var ("c4")) (.powN (.cos (.var ("phi"))) 4)))
    (.mul (.var ("c5")) (.powN (.cos (.var ("phi"))) 5))

/-- Modelled from the spec: the `PeriodicImproperPotential` template of
the potential-template library (`lib["PeriodicImproperPotential"]`,
line 462; the library itself is outside the packaged sources).  The
spec catalog names a periodic improper form; it is the periodic
torsion form over the improper angle. -/
def periodicImproperExpr : SymExpr := .mul (.var ("k")) periodicBody

/-- Modelled from the spec: the `HarmonicImproperPotential` template
(`lib["HarmonicImproperPotential"]`, line 475), the harmonic improper
form of the spec catalog. -/
def harmonicImproperExpr : SymExpr :=
  .mul (.mul (.num (1/2)) (.var ("k"))) (.powN (.sub (.var ("phi")) (.var ("phi_eq"))) 2)

/-! ## Synthesized identities and small container helpers -/

/-- Synthesized identity for the raw objects whose Python `id(...)` (or
the object itself) is used as a dict key: a type record is identified
by the external list holding it and its index there; `noneObj` is
`id(None)` (the shared key every `member.type is None` instance
produces); `otherObj o` is the identity of an object that is not an
instance of the expected external class. -/
inductive PmdId where
  | atomT (i : ℕ)
  | bondT (i : ℕ)
  | angleT (i : ℕ)
  | dihedT (i : ℕ)
  | rbT (i : ℕ)
  | impT (i : ℕ)
  | noneObj
  | otherObj (o : ℕ)
deriving DecidableEq, Repr

/-- First-match association lookup over `PmdId` keys (Python dict read). -/
def lookupA {β : Type} (m : List (PmdId × β)) (k : PmdId) : Option β :=
  (m.find? (fun e => decide (e.1 = k))).map (fun e => e.2)

/-- First-match association lookup over `ℕ` keys. -/
def lookupN {β : Type} (m : List (ℕ × β)) (k : ℕ) : Option β :=
  (m.find? (fun e => decide (e.1 = k))).map (fun e => e.2)

/-- First-match association lookup over `String` keys. -/
def lookupS {β : Type} (m : List (String × β)) (k : String) : Option β :=
  (m.find? (fun e => decide (e.1 = k))).map (fun e => e.2)

/-- Replace-or-append write of one key (Python `d[k] = v`). -/
def setA {β : Type} : List (PmdId × β) → PmdId → β → List (PmdId × β)
  | [], k, v => [(k, v)]
  | e :: rest, k, v => if e.1 = k then (k, v) :: rest else e :: setA rest k v

/-- Python `dict.update`: write every entry of the second map into the
first. -/
def updateA {β : Type} (base upd : List (PmdId × β)) : List (PmdId × β) :=
  upd.foldl (fun m e => setA m e.1 e.2) base

/-- Total list indexing with a default (used only where the source
holds a direct object reference, so the index is valid by
construction; well-formedness hypotheses discharge the bound). -/
def nthD {α : Type} (d : α) : List α → ℕ → α
  | [], _ => d
  | x :: _, 0 => x
  | _ :: xs, n + 1 => nthD d xs n

/-- Decidable equality of results (Except carries no instance of its
own). -/
instance exceptDecEq {ε α : Type} [DecidableEq ε] [DecidableEq α] :
    DecidableEq (Except ε α) := fun a b =>
  match a, b with
  | .ok x, .ok y =>
      if h : x = y then isTrue (by rw [h]) else isFalse (by intro hc; injection hc; exact h (by assumption))
  | .error x, .error y =>
      if h : x = y then isTrue (by rw [h]) else isFalse (by intro hc; injection hc; exact h (by assumption))
  | .ok _, .error _ => isFalse (by intro hc; exact Except.noConfusion hc)
  | .error _, .ok _ => isFalse (by intro hc; exact Except.noConfusion hc)

/-! ## Errors and warnings -/

/-- The error conditions of the conversion pair: Python `KeyError` /
`AttributeError` on the lookup tables, the `assert` mismatch messages
(AssertionError), and `GMSOError` — the spec groups the
expression-mismatch ones as `FormatIncompatibilityError`. -/
inductive ConvErr where
  | keyError
  | attributeError
  | assertionError (msg : String)
  | gmsoError (msg : String)
deriving DecidableEq, Repr

/-- The non-fatal advisory warnings of the forward converter, tagged by
the index of the external instance they concern: a periodic-form
dihedral flagged improper (converted to an Improper, lines 142-147),
and an RB-form torsion flagged improper (converted to a Dihedral,
lines 188-193). -/
inductive ConvWarning where
  | periodicImproper (i : ℕ)
  | rbImproper (i : ℕ)
deriving DecidableEq, Repr

/-- Monadic map over a list in `Except`, the Python for-loop that may
raise. -/
def exMap {α β : Type} (f : α → Except ConvErr β) : List α → Except ConvErr (List β)
  | [] => .ok []
  | x :: xs => do
      let y ← f x
      let ys ← exMap f xs
      .ok (y :: ys)

/-- List indexing that raises like a Python dict/list miss. -/
def getOrErr {α : Type} : List α → ℕ → Except ConvErr α
  | [], _ => .error .keyError
  | x :: _, 0 => .ok x
  | _ :: xs, n + 1 => getOrErr xs n

/-! ## External (ParmEd) structure model -/

/-- Raw external atom type record (`pmd.AtomType`). -/
structure PmdAtomType where
  name : String
  charge : ℚ
  sigma : ℚ
  epsilon : ℚ
  mass : ℚ
  atomic_number : ℕ
deriving DecidableEq, Repr

/-- Reference from an instance to its raw type record: absent
(`None`), an object of an unexpected class (with its own object
identity), or the record at index `i` of the per-kind type list. -/
inductive PmdTypeRef where
  | noneRef
  | wrongClass (o : ℕ)
  | ref (i : ℕ)
deriving DecidableEq, Repr

/-- External atom.  `element` is the atomic number (`0` is falsy);
`typeLabel` is `atom.type`, the atom-type-name string (`""` when
unassigned); `atom_type` references the atom-type record arena.
Masses are not modelled (no claim observes them). -/
structure PmdAtom where
  name : String
  charge : ℚ
  xx : ℚ
  xy : ℚ
  xz : ℚ
  element : ℕ
  atom_type : PmdTypeRef
  typeLabel : String
deriving DecidableEq, Repr

/-- External residue: name, number and the member atoms (indices into
the structure atom list). -/
structure PmdResidue where
  name : String
  number : ℤ
  atoms : List ℕ
deriving DecidableEq, Repr

/-- External bond between two atoms (indices into the atom list). -/
structure PmdBond where
  atom1 : ℕ
  atom2 : ℕ
  type : PmdTypeRef
deriving DecidableEq, Repr

structure PmdAngle where
  atom1 : ℕ
  atom2 : ℕ
  atom3 : ℕ
  type : PmdTypeRef
deriving DecidableEq, Repr

/-- External dihedral; `improper` is the ParmEd flag marking a
periodic-form dihedral as an improper torsion. -/
structure PmdDihedral where
  atom1 : ℕ
  atom2 : ℕ
  atom3 : ℕ
  atom4 : ℕ
  improper : Bool
  type : PmdTypeRef
deriving DecidableEq, Repr

/-- External Ryckaert-Bellemans torsion (held in `rb_torsions`; in
ParmEd these are `Dihedral` objects whose type is an `RBTorsionType`). -/
structure PmdRBTorsion where
  atom1 : ℕ
  atom2 : ℕ
  atom3 : ℕ
  atom4 : ℕ
  improper : Bool
  type : PmdTypeRef
deriving DecidableEq, Repr

structure PmdImproper where
  atom1 : ℕ
  atom2 : ℕ
  atom3 : ℕ
  atom4 : ℕ
  type : PmdTypeRef
deriving DecidableEq, Repr

/-- Raw bond type record (`pmd.BondType`, fields `k`, `req`). -/
structure PmdBondType where
  k : ℚ
  req : ℚ
deriving DecidableEq, Repr

/-- Raw angle type record (`pmd.AngleType`, fields `k`, `theteq`). -/
structure PmdAngleType where
  k : ℚ
  theteq : ℚ
deriving DecidableEq, Repr

/-- Raw periodic dihedral type record (`pmd.DihedralType`, fields
`phi_k`, `per`, `phase`). -/
structure PmdDihedralTypeR where
  phi_k : ℚ
  per : ℚ
  phase : ℚ
deriving DecidableEq, Repr

/-- Raw RB torsion type record (`pmd.RBTorsionType`). -/
structure PmdRBTorsionType where
  c0 : ℚ
  c1 : ℚ
  c2 : ℚ
  c3 : ℚ
  c4 : ℚ
  c5 : ℚ
deriving DecidableEq, Repr

/-- Raw improper type record (`pmd.ImproperType`, fields `psi_k`,
`psi_eq`). -/
structure PmdImproperType where
  psi_k : ℚ
  psi_eq : ℚ
deriving DecidableEq, Repr

/-- The external structure (`pmd.Structure`).  `box` is `None` or the
six-component array `[lx, ly, lz, alpha, beta, gamma]` in angstrom and
degrees.  `atom_type_records` is the arena of `pmd.AtomType` objects
the atoms reference. -/
structure PmdStructure where
  title : String
  box : Option (List ℚ)
  residues : List PmdResidue
  atoms : List PmdAtom
  bonds : List PmdBond
  angles : List PmdAngle
  dihedrals : List PmdDihedral
  rb_torsions : List PmdRBTorsion
  impropers : List PmdImproper
  atom_type_records : List PmdAtomType
  bond_types : List PmdBondType
  angle_types : List PmdAngleType
  dihedral_types : List PmdDihedralTypeR
  rb_torsion_types : List PmdRBTorsionType
  improper_types : List PmdImproperType
  combining_rule : String
deriving DecidableEq, Repr

/-! ## Internal (GMSO) topology model -/

/-- Internal canonical AtomType.  `uid` is the object identity of the
freshly constructed Python object (one per constructor call).
`element` abstracts the element collaborator as the resolved
(mass, atomic number) pair when resolution succeeds. -/
structure TopAtomType where
  uid : ℕ
  name : String
  charge : ℚ
  expression : SymExpr
  parameters : List (String × ℚ)
  element : Option (ℚ × ℕ)
deriving DecidableEq, Repr

/-- Internal canonical BondType. -/
structure TopBondType where
  uid : ℕ
  name : String
  expression : SymExpr
  parameters : List (String × ℚ)
  member_types : Option (List String)
deriving DecidableEq, Repr

structure TopAngleType where
  uid : ℕ
  name : String
  expression : SymExpr
  parameters : List (String × ℚ)
  member_types : Option (List String)
deriving DecidableEq, Repr

/-- Internal canonical DihedralType (carries either the periodic or
the RB parameter set, distinguished by `expression`). -/
structure TopDihedralType where
  uid : ℕ
  name : String
  expression : SymExpr
  parameters : List (String × ℚ)
  member_types : Option (List String)
deriving DecidableEq, Repr

structure TopImproperType where
  uid : ℕ
  name : String
  expression : SymExpr
  parameters : List (String × ℚ)
  member_types : Option (List String)
deriving DecidableEq, Repr

/-- Internal site (`gmso.Atom`).  `residue` and `molecule` are the
(name, index) labels; position is in angstrom as read from the
external atom; site masses are not modelled (no claim observes them). -/
structure TopAtom where
  name : String
  charge : ℚ
  position : ℚ × ℚ × ℚ
  element : Option ℕ
  residue : Option (String × ℕ)
  molecule : Option (String × ℕ)
  atom_type : Option TopAtomType
deriving DecidableEq, Repr

/-- Internal bond; `connection_members` are site indices into the
owning topology, in construction order. -/
structure TopBond where
  connection_members : List ℕ
  bond_type : Option TopBondType
deriving DecidableEq, Repr

structure TopAngle where
  connection_members : List ℕ
  angle_type : Option TopAngleType
deriving DecidableEq, Repr

structure TopDihedral where
  connection_members : List ℕ
  dihedral_type : Option TopDihedralType
deriving DecidableEq, Repr

structure TopImproper where
  connection_members : List ℕ
  improper_type : Option TopImproperType
deriving DecidableEq, Repr

/-- GMSO Improper convention: the first listed connection member is
the central atom. -/
def TopImproper.centralAtom (c : TopImproper) : Option ℕ :=
  c.connection_members.head?

/-- Internal box, stored as lengths (nm) plus angles (degrees). -/
structure GBox where
  lx : ℚ
  ly : ℚ
  lz : ℚ
  alpha : ℚ
  beta : ℚ
  gamma : ℚ
deriving DecidableEq, Repr

/-- The internal topology. -/
structure Topology where
  name : String
  box : Option GBox
  sites : List TopAtom
  bonds : List TopBond
  angles : List TopAngle
  dihedrals : List TopDihedral
  impropers : List TopImproper
  combining_rule : String
deriving DecidableEq, Repr

/-- First-occurrence deduplication by object identity, the view the
topology presents of the set of types currently in use. -/
def dedupByUid {α : Type} (uid : α → ℕ) (l : List α) : List α :=
  l.foldl (fun acc x => if acc.any (fun y => decide (uid y = uid x)) then acc else acc ++ [x]) []

/-- `top.atom_types`: the distinct AtomType objects referenced by the
sites. -/
def Topology.atom_types (t : Topology) : List TopAtomType :=
  dedupByUid (fun x => x.uid) (t.sites.filterMap (fun st => st.atom_type))

def Topology.bond_types (t : Topology) : List TopBondType :=
  dedupByUid (fun x => x.uid) (t.bonds.filterMap (fun b => b.bond_type))

def Topology.angle_types (t : Topology) : List TopAngleType :=
  dedupByUid (fun x => x.uid) (t.angles.filterMap (fun a => a.angle_type))

def Topology.dihedral_types (t : Topology) : List TopDihedralType :=
  dedupByUid (fun x => x.uid) (t.dihedrals.filterMap (fun d => d.dihedral_type))

/-! ## Member-types map builder (`_get_types_map` / `_get_member_types_map_for`) -/

/-- One step of `_get_member_types_map_for`: the synthesized identity
key and the resolved member-type-label tuple for one instance, or a
`none` key for the fall-through `return None, (None, None)`.  The
per-kind dispatch that the source does with `isinstance` checks is
rendered as one such function per external collection. -/
def typeRefId (mk : ℕ → PmdId) : PmdTypeRef → PmdId
  | .noneRef => .noneObj
  | .wrongClass o => .otherObj o
  | .ref i => mk i

/-- `atom.type` of the external atom at index `i` (out-of-range never
occurs on source-generated data: the instance holds the object). -/
def atomLabel (s : PmdStructure) (i : ℕ) : String :=
  (nthD { name := "", charge := 0, xx := 0, xy := 0, xz := 0, element := 0,
          atom_type := .noneRef, typeLabel := "" } s.atoms i).typeLabel

/-- `_get_member_types_map_for` on a `pmd.Bond`. -/
def bondKeyLab (s : PmdStructure) (b : PmdBond) : Option PmdId × List String :=
  (some (typeRefId .bondT b.type), [atomLabel s b.atom1, atomLabel s b.atom2])

/-- `_get_member_types_map_for` on a `pmd.Angle`. -/
def angleKeyLab (s : PmdStructure) (a : PmdAngle) : Option PmdId × List String :=
  (some (typeRefId .angleT a.type), [atomLabel s a.atom1, atomLabel s a.atom2, atomLabel s a.atom3])

/-- `_get_member_types_map_for` on a `pmd.Dihedral` with
`impropers=False`: only non-improper dihedrals resolve; flagged ones
fall through to `None, (None, None)`. -/
def dihedralKeyLab (s : PmdStructure) (d : PmdDihedral) : Option PmdId × List String :=
  if d.improper then (none, ["", ""])
  else (some (typeRefId .dihedT d.type),
        [atomLabel s d.atom1, atomLabel s d.atom2, atomLabel s d.atom3, atomLabel s d.atom4])

/-- `_get_member_types_map_for` on an `rb_torsions` member (a ParmEd
`Dihedral` carrying an RB type) with `impropers=False`. -/
def rbKeyLab (s : PmdStructure) (r : PmdRBTorsion) : Option PmdId × List String :=
  if r.improper then (none, ["", ""])
  else (some (typeRefId .rbT r.type),
        [atomLabel s r.atom1, atomLabel s r.atom2, atomLabel s r.atom3, atomLabel s r.atom4])

/-- `_get_member_types_map_for` on a `pmd.Dihedral` with
`impropers=True`: only flagged dihedrals resolve. -/
def improperDihedralKeyLab (s : PmdStructure) (d : PmdDihedral) : Option PmdId × List String :=
  if d.improper then
    (some (typeRefId .dihedT d.type),
     [atomLabel s d.atom1, atomLabel s d.atom2, atomLabel s d.atom3, atomLabel s d.atom4])
  else (none, ["", ""])

/-- `_get_member_types_map_for` on a `pmd.Improper` when called with
the default `impropers=False` (as `from_parmed` line 77 does): the
`isinstance` chain matches no branch, so every improper instance falls
through to `None, (None, None)`. -/
def improperDefaultKeyLab (_ : PmdStructure) (_ : PmdImproper) : Option PmdId × List String :=
  (none, ["", ""])

/-- The `_get_types_map` loop: walk the instances, and record
`key ↦ member labels` when the key is new and every label is
non-empty (`conn_type_id not in type_map and all(member_types)`). -/
def getTypesMapGo {α : Type} (f : α → Option PmdId × List String) :
    List (PmdId × List String) → List α → List (PmdId × List String)
  | m, [] => m
  | m, x :: xs =>
      match (f x).1 with
      | some k =>
          if (lookupA m k).isNone && (f x).2.all (fun lab => decide (lab ≠ "")) then
            getTypesMapGo f (m ++ [(k, (f x).2)]) xs
          else getTypesMapGo f m xs
      | none => getTypesMapGo f m xs

/-- `_get_types_map(structure, attr, impropers)` with the dispatch
function for the chosen collection. -/
def getTypesMap {α : Type} (f : α → Option PmdId × List String) (l : List α) :
    List (PmdId × List String) :=
  getTypesMapGo f [] l

/-- The dihedral member map of `from_parmed` lines 68-71:
`_get_types_map(structure, "dihedrals", impropers=False)` updated with
`_get_types_map(structure, "rb_torsions")`. -/
def dihMemberMap (s : PmdStructure) : List (PmdId × List String) :=
  updateA (getTypesMap (dihedralKeyLab s) s.dihedrals) (getTypesMap (rbKeyLab s) s.rb_torsions)

/-- The improper member map of `from_parmed` lines 77-80:
`_get_types_map(structure, "impropers")` (note: with the default
`impropers=False`, so it records nothing) updated with
`_get_types_map(structure, "dihedrals")` (again the default
`impropers=False`, so it records the NON-improper dihedrals).  The
call also passes `impropers=True` as a keyword to `dict.update`, which
adds a spurious string-keyed entry `"impropers": True` to the dict;
no lookup ever uses a string key, so that dead entry is not modelled. -/
def impMemberMap (s : PmdStructure) : List (PmdId × List String) :=
  updateA (getTypesMap (improperDefaultKeyLab s) s.impropers)
    (getTypesMap (dihedralKeyLab s) s.dihedrals)

/-! ## Forward type maps (`_X_types_from_pmd`) -/

/-- The distinct `pmd.AtomType` objects referenced by the atoms
(`unique_atom_types`, a set keyed by object identity; the iteration
order of a Python set is unspecified, first-occurrence order is
chosen). -/
def uniqueAtomTypeRefs (s : PmdStructure) : List ℕ :=
  (s.atoms.filterMap (fun a => match a.atom_type with | .ref i => some i | _ => none)).foldl
    (fun acc i => if acc.contains i then acc else acc ++ [i]) []

/-- Build one internal AtomType from a raw record (`_atom_types_from_pmd`
body, lines 258-275).  `uid` is the identity of the freshly constructed
object.  The element tag resolution (prefer the atomic number, fall
back to the declared name) is carried as the abstract element field. -/
def mkTopAtomType (uid : ℕ) (r : PmdAtomType) : TopAtomType :=
  { uid := uid, name := r.name, charge := r.charge, expression := ljExpr,
    parameters := [("sigma", r.sigma), ("epsilon", r.epsilon)],
    element := if r.atomic_number ≠ 0 then some (r.mass, r.atomic_number) else none }

/-- `_atom_types_from_pmd`: one fresh internal AtomType per distinct
referenced raw record, keyed by the identity of the raw record. -/
def atomTypesFromPmdGo (arena : List PmdAtomType) :
    ℕ → List ℕ → Except ConvErr (List (ℕ × TopAtomType))
  | _, [] => .ok []
  | n, i :: rest => do
      let r ← getOrErr arena i
      let tl ← atomTypesFromPmdGo arena (n + 1) rest
      .ok ((i, mkTopAtomType n r) :: tl)

def atomTypesFromPmd (s : PmdStructure) : Except ConvErr (List (ℕ × TopAtomType)) :=
  atomTypesFromPmdGo s.atom_type_records 0 (uniqueAtomTypeRefs s)

/-- Total form of the atom-type map (equal to the `Except` form when
every referenced index is in the arena). -/
def atomTypesTotalGo (arena : List PmdAtomType) : ℕ → List ℕ → List (ℕ × TopAtomType)
  | _, [] => []
  | n, i :: rest =>
      (i, mkTopAtomType n (nthD { name := "", charge := 0, sigma := 0, epsilon := 0,
                                  mass := 0, atomic_number := 0 } arena i)) ::
        atomTypesTotalGo arena (n + 1) rest

def atomTypesTotal (s : PmdStructure) : List (ℕ × TopAtomType) :=
  atomTypesTotalGo s.atom_type_records 0 (uniqueAtomTypeRefs s)

/-- `_bond_types_from_pmd` (lines 300-317): one fresh internal BondType
per raw record of `structure.bond_types`, with the harmonic-bond
default expression, `k` doubled into the internal convention, and the
member types resolved through the member map at the record identity. -/
def bondTypesFromPmdGo (mm : List (PmdId × List String)) :
    ℕ → List PmdBondType → List (ℕ × TopBondType)
  | _, [] => []
  | i, bt :: rest =>
      (i, { uid := i, name := "BondType", expression := harmonicBondExpr,
            parameters := [("k", 2 * bt.k), ("r_eq", bt.req)],
            member_types := lookupA mm (.bondT i) }) :: bondTypesFromPmdGo mm (i + 1) rest

def bondTypesFromPmd (s : PmdStructure) (mm : List (PmdId × List String)) :
    List (ℕ × TopBondType) :=
  bondTypesFromPmdGo mm 0 s.bond_types

/-- `_angle_types_from_pmd` (lines 341-362). -/
def angleTypesFromPmdGo (mm : List (PmdId × List String)) :
    ℕ → List PmdAngleType → List (ℕ × TopAngleType)
  | _, [] => []
  | i, agt :: rest =>
      (i, { uid := i, name := "AngleType", expression := harmonicAngleExpr,
            parameters := [("k", 2 * agt.k), ("theta_eq", agt.theteq)],
            member_types := lookupA mm (.angleT i) }) :: angleTypesFromPmdGo mm (i + 1) rest

def angleTypesFromPmd (s : PmdStructure) (mm : List (PmdId × List String)) :
    List (ℕ × TopAngleType) :=
  angleTypesFromPmdGo mm 0 s.angle_types

/-- `_dihedral_types_from_pmd` (lines 386-426): the periodic records of
`structure.dihedral_types` (keyed `id(dihedraltype)`, default periodic
expression) followed by the RB records of `structure.rb_torsion_types`
(keyed by their own identity, RB expression); uids continue across the
two loops — every constructed object is distinct. -/
def dihedralTypesFromPmdGoA (mm : List (PmdId × List String)) :
    ℕ → List PmdDihedralTypeR → List (PmdId × TopDihedralType)
  | _, [] => []
  | i, dt :: rest =>
      (PmdId.dihedT i,
       { uid := i, name := "DihedralType", expression := periodicTorsionExpr,
         parameters := [("k", dt.phi_k), ("phi_eq", dt.phase), ("n", dt.per)],
         member_types := lookupA mm (.dihedT i) }) :: dihedralTypesFromPmdGoA mm (i + 1) rest

def dihedralTypesFromPmdGoB (mm : List (PmdId × List String)) (base : ℕ) :
    ℕ → List PmdRBTorsionType → List (PmdId × TopDihedralType)
  | _, [] => []
  | i, rt :: rest =>
      (PmdId.rbT i,
       { uid := base + i, name := "DihedralType", expression := rbExpr,
         parameters := [("c0", rt.c0), ("c1", rt.c1), ("c2", rt.c2),
                        ("c3", rt.c3), ("c4", rt.c4), ("c5", rt.c5)],
         member_types := lookupA mm (.rbT i) }) :: dihedralTypesFromPmdGoB mm base (i + 1) rest

def dihedralTypesFromPmd (s : PmdStructure) (mm : List (PmdId × List String)) :
    List (PmdId × TopDihedralType) :=
  dihedralTypesFromPmdGoA mm 0 s.dihedral_types ++
    dihedralTypesFromPmdGoB mm s.dihedral_types.length 0 s.rb_torsion_types

/-- `_improper_types_from_pmd` (lines 451-482): every periodic record
of `structure.dihedral_types` becomes an internal ImproperType with
the periodic improper template (keyed `id(dihedraltype)`), every
record of `structure.improper_types` one with the harmonic improper
template (keyed by the record itself). -/
def improperTypesFromPmdGoA (mm : List (PmdId × List String)) :
    ℕ → List PmdDihedralTypeR → List (PmdId × TopImproperType)
  | _, [] => []
  | i, dt :: rest =>
      (PmdId.dihedT i,
       { uid := i, name := "ImproperType", expression := periodicImproperExpr,
         parameters := [("k", dt.phi_k), ("phi_eq", dt.phase), ("n", dt.per)],
         member_types := lookupA mm (.dihedT i) }) :: improperTypesFromPmdGoA mm (i + 1) rest

def improperTypesFromPmdGoB (mm : List (PmdId × List String)) (base : ℕ) :
    ℕ → List PmdImproperType → List (PmdId × TopImproperType)
  | _, [] => []
  | i, it :: rest =>
      (PmdId.impT i,
       { uid := base + i, name := "ImproperType", expression := harmonicImproperExpr,
         parameters := [("k", it.psi_k), ("phi_eq", it.psi_eq)],
         member_types := lookupA mm (.impT i) }) :: improperTypesFromPmdGoB mm base (i + 1) rest

def improperTypesFromPmd (s : PmdStructure) (mm : List (PmdId × List String)) :
    List (PmdId × TopImproperType) :=
  improperTypesFromPmdGoA mm 0 s.dihedral_types ++
    improperTypesFromPmdGoB mm s.dihedral_types.length 0 s.improper_types

/-! ## Residue independence check and the site map -/

/-- `atom.bond_partners` of atom `a`: the atoms bonded to it (ParmEd
maintains this list from the Bond objects; only set membership is
consumed). -/
def bondPartners (s : PmdStructure) (a : ℕ) : List ℕ :=
  s.bonds.foldr
    (fun b acc =>
      if b.atom1 = a then b.atom2 :: acc
      else if b.atom2 = a then b.atom1 :: acc else acc) []

/-- The flattened bond partners of all atoms of one residue. -/
def residuePartners (s : PmdStructure) (r : PmdResidue) : List ℕ :=
  (r.atoms.map (bondPartners s)).flatten

/-- Boolean set equality of two index lists. -/
def listSetEq (l1 l2 : List ℕ) : Bool :=
  l1.all (fun x => l2.contains x) && l2.all (fun x => l1.contains x)

/-- `_check_independent_residues` (lines 612-627): for each residue,
skip it when none of its atoms has any bond partner, and fail when the
set of bond partners of its atoms differs from its own atom set. -/
def checkIndependentResidues (s : PmdStructure) : Bool :=
  s.residues.all (fun r =>
    let partners := residuePartners s r
    partners.isEmpty || listSetEq r.atoms partners)

/-- The atoms of the structure in residue-traversal order (the order
sites are created in). -/
def flatAtoms (s : PmdStructure) : List ℕ :=
  (s.residues.map (fun r => r.atoms)).flatten

/-- `site_map`: external atom index to site index, in creation order. -/
def siteMapGo : ℕ → List ℕ → List (ℕ × ℕ)
  | _, [] => []
  | n, a :: rest => (a, n) :: siteMapGo (n + 1) rest

def buildSiteMap (s : PmdStructure) : List (ℕ × ℕ) :=
  siteMapGo 0 (flatAtoms s)

/-- Total site lookup (the site index an atom was mapped to). -/
def smLookup (s : PmdStructure) (a : ℕ) : ℕ :=
  (lookupN (buildSiteMap s) a).getD 0

/-- Site lookup raising Python `KeyError` on a miss
(`site_map[...]`). -/
def smLookupE (s : PmdStructure) (a : ℕ) : Except ConvErr ℕ :=
  match lookupN (buildSiteMap s) a with
  | some v => .ok v
  | none => .error .keyError

/-! ## Box conversion -/

/-- The box branch of `from_parmed` lines 46-51: `np.all(structure.box)`
is false when the box is `None` or any of the six components is zero;
otherwise the lengths (angstrom) are converted to nm and the angles
taken in degrees.  A ParmEd box is `None` or has exactly six
components; other shapes do not arise. -/
def fromParmedBox : Option (List ℚ) → Option GBox
  | none => none
  | some l =>
      if l.all (fun x => decide (x ≠ 0)) then
        match l with
        | [a, b, c, al, be, ga] =>
            some { lx := a / 10, ly := b / 10, lz := c / 10,
                   alpha := al, beta := be, gamma := ga }
        | _ => none
      else none

/-- The box emission of `to_parmed` lines 511-520: lengths to angstrom,
angles to degrees, concatenated; `None` when the topology has no box. -/
def toParmedBoxArr : Option GBox → Option (List ℚ)
  | none => none
  | some b => some [10 * b.lx, 10 * b.ly, 10 * b.lz, b.alpha, b.beta, b.gamma]

/-! ## Forward conversion loops -/

/-- Site construction for one external atom (lines 88-104): residue
label always, molecule label only when the whole-structure residue
independence check passed, atom type resolved through the forward
atom-type map when type transfer is on and the atom references a real
`pmd.AtomType`. -/
def mkSite (a : PmdAtom) (rname : String) (ridx : ℕ) (indRes : Bool)
    (at? : Option TopAtomType) : TopAtom :=
  { name := a.name, charge := a.charge, position := (a.xx, a.xy, a.xz),
    element := if a.element ≠ 0 then some a.element else none,
    residue := some (rname, ridx),
    molecule := if indRes then some (rname, ridx) else none,
    atom_type := at? }

/-- One atom of the site loop, with the `pmd_top_atomtypes[...]` read. -/
def siteExc (s : PmdStructure) (referType : Bool) (atMap : List (ℕ × TopAtomType))
    (indRes : Bool) (rname : String) (ridx : ℕ) (ai : ℕ) : Except ConvErr TopAtom := do
  let a ← getOrErr s.atoms ai
  match referType, a.atom_type with
  | true, .ref i =>
      match lookupN atMap i with
      | some t => .ok (mkSite a rname ridx indRes (some t))
      | none => .error .keyError
  | _, _ => .ok (mkSite a rname ridx indRes none)

/-- The residue/site loop of lines 86-107. -/
def buildSitesGo (s : PmdStructure) (referType : Bool) (atMap : List (ℕ × TopAtomType))
    (indRes : Bool) : ℕ → List PmdResidue → Except ConvErr (List TopAtom)
  | _, [] => .ok []
  | ridx, r :: rest => do
      let here ← exMap (siteExc s referType atMap indRes r.name ridx) r.atoms
      let tl ← buildSitesGo s referType atMap indRes (ridx + 1) rest
      .ok (here ++ tl)

def buildSites (s : PmdStructure) (referType : Bool) (atMap : List (ℕ × TopAtomType))
    (indRes : Bool) : Except ConvErr (List TopAtom) :=
  buildSitesGo s referType atMap indRes 0 s.residues

/-- One bond of the bond loop (lines 109-117). -/
def convBond (s : PmdStructure) (referType : Bool) (btMap : List (ℕ × TopBondType))
    (b : PmdBond) : Except ConvErr TopBond := do
  let m1 ← smLookupE s b.atom1
  let m2 ← smLookupE s b.atom2
  match referType, b.type with
  | true, .ref i =>
      match lookupN btMap i with
      | some t => .ok { connection_members := [m1, m2], bond_type := some t }
      | none => .error .keyError
  | _, _ => .ok { connection_members := [m1, m2], bond_type := none }

/-- One angle of the angle loop (lines 119-131). -/
def convAngle (s : PmdStructure) (referType : Bool) (agMap : List (ℕ × TopAngleType))
    (a : PmdAngle) : Except ConvErr TopAngle := do
  let m1 ← smLookupE s a.atom1
  let m2 ← smLookupE s a.atom2
  let m3 ← smLookupE s a.atom3
  match referType, a.type with
  | true, .ref i =>
      match lookupN agMap i with
      | some t => .ok { connection_members := [m1, m2, m3], angle_type := some t }
      | none => .error .keyError
  | _, _ => .ok { connection_members := [m1, m2, m3], angle_type := none }

/-- An improper-flagged periodic dihedral becomes an internal Improper
with the member order preserved (lines 154-165), typed through the
improper-type map at `id(dihedral.type)`. -/
def improperOfDihedral (s : PmdStructure) (referType : Bool)
    (impMap : List (PmdId × TopImproperType)) (d : PmdDihedral) :
    Except ConvErr TopImproper := do
  let m1 ← smLookupE s d.atom1
  let m2 ← smLookupE s d.atom2
  let m3 ← smLookupE s d.atom3
  let m4 ← smLookupE s d.atom4
  match referType, d.type with
  | true, .ref i =>
      match lookupA impMap (.dihedT i) with
      | some t => .ok { connection_members := [m1, m2, m3, m4], improper_type := some t }
      | none => .error .keyError
  | _, _ => .ok { connection_members := [m1, m2, m3, m4], improper_type := none }

/-- A non-improper periodic dihedral becomes an internal Dihedral
(lines 167-178), typed through the dihedral-type map at
`id(dihedral.type)`. -/
def dihedralOfDihedral (s : PmdStructure) (referType : Bool)
    (dMap : List (PmdId × TopDihedralType)) (d : PmdDihedral) :
    Except ConvErr TopDihedral := do
  let m1 ← smLookupE s d.atom1
  let m2 ← smLookupE s d.atom2
  let m3 ← smLookupE s d.atom3
  let m4 ← smLookupE s d.atom4
  match referType, d.type with
  | true, .ref i =>
      match lookupA dMap (.dihedT i) with
      | some t => .ok { connection_members := [m1, m2, m3, m4], dihedral_type := some t }
      | none => .error .keyError
  | _, _ => .ok { connection_members := [m1, m2, m3, m4], dihedral_type := none }

/-- The dihedral loop of lines 133-180: flagged instances go to the
improper list (with an advisory warning), the rest to the dihedral
list; insertion order is preserved within each list. -/
def convDihedrals (s : PmdStructure) (referType : Bool)
    (dMap : List (PmdId × TopDihedralType)) (impMap : List (PmdId × TopImproperType)) :
    ℕ → List PmdDihedral →
    Except ConvErr (List TopDihedral × List TopImproper × List ConvWarning)
  | _, [] => .ok ([], [], [])
  | i, d :: rest =>
      if d.improper then do
        let c ← improperOfDihedral s referType impMap d
        let (ds, imps, ws) ← convDihedrals s referType dMap impMap (i + 1) rest
        .ok (ds, c :: imps, .periodicImproper i :: ws)
      else do
        let c ← dihedralOfDihedral s referType dMap d
        let (ds, imps, ws) ← convDihedrals s referType dMap impMap (i + 1) rest
        .ok (c :: ds, imps, ws)

/-- An RB torsion always becomes an internal Dihedral (lines 195-207),
typed through the dihedral-type map at `id(rb_torsion.type)`. -/
def dihedralOfRb (s : PmdStructure) (referType : Bool)
    (dMap : List (PmdId × TopDihedralType)) (r : PmdRBTorsion) :
    Except ConvErr TopDihedral := do
  let m1 ← smLookupE s r.atom1
  let m2 ← smLookupE s r.atom2
  let m3 ← smLookupE s r.atom3
  let m4 ← smLookupE s r.atom4
  match referType, r.type with
  | true, .ref i =>
      match lookupA dMap (.rbT i) with
      | some t => .ok { connection_members := [m1, m2, m3, m4], dihedral_type := some t }
      | none => .error .keyError
  | _, _ => .ok { connection_members := [m1, m2, m3, m4], dihedral_type := none }

/-- The RB torsion loop of lines 182-207: improper-flagged instances
are warned about but still converted to Dihedrals. -/
def convRbTorsions (s : PmdStructure) (referType : Bool)
    (dMap : List (PmdId × TopDihedralType)) :
    ℕ → List PmdRBTorsion → Except ConvErr (List TopDihedral × List ConvWarning)
  | _, [] => .ok ([], [])
  | i, r :: rest => do
      let c ← dihedralOfRb s referType dMap r
      let (ds, ws) ← convRbTorsions s referType dMap (i + 1) rest
      .ok (c :: ds, if r.improper then .rbImproper i :: ws else ws)

/-- One improper of the improper loop (lines 209-226), typed through
the improper-type map at the raw `pmd.ImproperType` record. -/
def convImproper (s : PmdStructure) (referType : Bool)
    (impMap : List (PmdId × TopImproperType)) (p : PmdImproper) :
    Except ConvErr TopImproper := do
  let m1 ← smLookupE s p.atom1
  let m2 ← smLookupE s p.atom2
  let m3 ← smLookupE s p.atom3
  let m4 ← smLookupE s p.atom4
  match referType, p.type with
  | true, .ref i =>
      match lookupA impMap (.impT i) with
      | some t => .ok { connection_members := [m1, m2, m3, m4], improper_type := some t }
      | none => .error .keyError
  | _, _ => .ok { connection_members := [m1, m2, m3, m4], improper_type := none }

/-- The bond-type map as `from_parmed` builds it (lines 57-60; empty
without type transfer). -/
def btMapOf (s : PmdStructure) (referType : Bool) : List (ℕ × TopBondType) :=
  if referType then bondTypesFromPmd s (getTypesMap (bondKeyLab s) s.bonds) else []

/-- The angle-type map (lines 62-65). -/
def agMapOf (s : PmdStructure) (referType : Bool) : List (ℕ × TopAngleType) :=
  if referType then angleTypesFromPmd s (getTypesMap (angleKeyLab s) s.angles) else []

/-- The dihedral-type map (lines 66-74). -/
def dMapOf (s : PmdStructure) (referType : Bool) : List (PmdId × TopDihedralType) :=
  if referType then dihedralTypesFromPmd s (dihMemberMap s) else []

/-- The improper-type map (lines 75-83). -/
def impMapOf (s : PmdStructure) (referType : Bool) : List (PmdId × TopImproperType) :=
  if referType then improperTypesFromPmd s (impMemberMap s) else []

/-- `from_parmed(structure, refer_type)`: the forward converter.  The
type maps are built only under type transfer (lines 54-83); the boolean
residue-independence check is computed once for the whole structure
(line 85); the collection walks follow the source order; the final
`update_topology()` only refreshes derived views (modelled by the
`Topology.*_types` functions) and the combining rule is copied.  The
result carries the advisory warnings emitted along the way. -/
def from_parmed (s : PmdStructure) (referType : Bool) :
    Except ConvErr (Topology × List ConvWarning) := do
  let atMap ← if referType then atomTypesFromPmd s else .ok []
  let sites ← buildSites s referType atMap (checkIndependentResidues s)
  let bonds ← exMap (convBond s referType (btMapOf s referType)) s.bonds
  let angles ← exMap (convAngle s referType (agMapOf s referType)) s.angles
  let (dihs1, imps1, ws1) ← convDihedrals s referType (dMapOf s referType)
    (impMapOf s referType) 0 s.dihedrals
  let (dihs2, ws2) ← convRbTorsions s referType (dMapOf s referType) 0 s.rb_torsions
  let imps2 ← exMap (convImproper s referType (impMapOf s referType)) s.impropers
  .ok ({ name := s.title, box := fromParmedBox s.box, sites := sites,
         bonds := bonds, angles := angles,
         dihedrals := dihs1 ++ dihs2, impropers := imps1 ++ imps2,
         combining_rule := s.combining_rule }, ws1 ++ ws2)

/-! ## Total (specification) forms of the forward stages -/

/-- Default external atom used by total indexing. -/
def defaultPmdAtom : PmdAtom :=
  { name := "", charge := 0, xx := 0, xy := 0, xz := 0, element := 0,
    atom_type := .noneRef, typeLabel := "" }

/-- Total form of the site atom-type resolution. -/
def siteTypeSpec (referType : Bool) (atMap : List (ℕ × TopAtomType)) (a : PmdAtom) :
    Option TopAtomType :=
  if referType then
    match a.atom_type with
    | .ref i => lookupN atMap i
    | _ => none
  else none

/-- Total form of the site loop. -/
def sitesSpecGo (s : PmdStructure) (referType : Bool) (atMap : List (ℕ × TopAtomType))
    (indRes : Bool) : ℕ → List PmdResidue → List TopAtom
  | _, [] => []
  | ridx, r :: rest =>
      r.atoms.map (fun ai =>
        let a := nthD defaultPmdAtom s.atoms ai
        mkSite a r.name ridx indRes (siteTypeSpec referType atMap a)) ++
      sitesSpecGo s referType atMap indRes (ridx + 1) rest

/-- The total form of the atom-type map as `from_parmed` binds it. -/
def atMapOf (s : PmdStructure) (referType : Bool) : List (ℕ × TopAtomType) :=
  if referType then atomTypesTotal s else []

def sitesSpec (s : PmdStructure) (referType : Bool) : List TopAtom :=
  sitesSpecGo s referType (atMapOf s referType) (checkIndependentResidues s) 0 s.residues

/-- Total form of one bond. -/
def bondSpec (s : PmdStructure) (referType : Bool) (b : PmdBond) : TopBond :=
  { connection_members := [smLookup s b.atom1, smLookup s b.atom2],
    bond_type := if referType then
        match b.type with
        | .ref i => lookupN (btMapOf s referType) i
        | _ => none
      else none }

/-- Total form of one angle. -/
def angleSpec (s : PmdStructure) (referType : Bool) (a : PmdAngle) : TopAngle :=
  { connection_members := [smLookup s a.atom1, smLookup s a.atom2, smLookup s a.atom3],
    angle_type := if referType then
        match a.type with
        | .ref i => lookupN (agMapOf s referType) i
        | _ => none
      else none }

/-- Total form of the Dihedral built from a non-improper external
dihedral. -/
def dihedralSpec (s : PmdStructure) (referType : Bool) (d : PmdDihedral) : TopDihedral :=
  { connection_members := [smLookup s d.atom1, smLookup s d.atom2,
                           smLookup s d.atom3, smLookup s d.atom4],
    dihedral_type := if referType then
        match d.type with
        | .ref i => lookupA (dMapOf s referType) (.dihedT i)
        | _ => none
      else none }

/-- Total form of the Improper built from an improper-flagged external
dihedral. -/
def dihImproperSpec (s : PmdStructure) (referType : Bool) (d : PmdDihedral) : TopImproper :=
  { connection_members := [smLookup s d.atom1, smLookup s d.atom2,
                           smLookup s d.atom3, smLookup s d.atom4],
    improper_type := if referType then
        match d.type with
        | .ref i => lookupA (impMapOf s referType) (.dihedT i)
        | _ => none
      else none }

/-- Total form of the Dihedral built from an RB torsion. -/
def rbSpec (s : PmdStructure) (referType : Bool) (r : PmdRBTorsion) : TopDihedral :=
  { connection_members := [smLookup s r.atom1, smLookup s r.atom2,
                           smLookup s r.atom3, smLookup s r.atom4],
    dihedral_type := if referType then
        match r.type with
        | .ref i => lookupA (dMapOf s referType) (.rbT i)
        | _ => none
      else none }

/-- Total form of the Improper built from an external improper. -/
def improperSpec (s : PmdStructure) (referType : Bool) (p : PmdImproper) : TopImproper :=
  { connection_members := [smLookup s p.atom1, smLookup s p.atom2,
                           smLookup s p.atom3, smLookup s p.atom4],
    improper_type := if referType then
        match p.type with
        | .ref i => lookupA (impMapOf s referType) (.impT i)
        | _ => none
      else none }

/-- The advisory warnings of one list walk. -/
def warnsGo {α : Type} (p : α → Bool) (mk : ℕ → ConvWarning) : ℕ → List α → List ConvWarning
  | _, [] => []
  | i, x :: rest =>
      if p x then mk i :: warnsGo p mk (i + 1) rest else warnsGo p mk (i + 1) rest

/-- The full warning list of a forward conversion. -/
def warnsSpec (s : PmdStructure) : List ConvWarning :=
  warnsGo (fun d => d.improper) .periodicImproper 0 s.dihedrals ++
    warnsGo (fun r => r.improper) .rbImproper 0 s.rb_torsions

/-- The total topology a well-formed forward conversion produces. -/
def topSpec (s : PmdStructure) (referType : Bool) : Topology :=
  { name := s.title, box := fromParmedBox s.box,
    sites := sitesSpec s referType,
    bonds := s.bonds.map (bondSpec s referType),
    angles := s.angles.map (angleSpec s referType),
    dihedrals := (s.dihedrals.filter (fun d => !d.improper)).map (dihedralSpec s referType) ++
      s.rb_torsions.map (rbSpec s referType),
    impropers := (s.dihedrals.filter (fun d => d.improper)).map (dihImproperSpec s referType) ++
      s.impropers.map (improperSpec s referType),
    combining_rule := s.combining_rule }

/-! ## Reverse converter (`to_parmed` and `_X_types_from_gmso`) -/

/-- Parameter read `type.parameters[name]` (KeyError on a miss). -/
def getParam (ps : List (String × ℚ)) (n : String) : Except ConvErr ℚ :=
  match lookupS ps n with
  | some v => .ok v
  | none => .error .keyError

/-- Replace-or-append write over `String` keys (Python `d[k] = v`). -/
def setS {β : Type} : List (String × β) → String → β → List (String × β)
  | [], k, v => [(k, v)]
  | e :: rest, k, v => if e.1 = k then (k, v) :: rest else e :: setS rest k v

/-- Modelled from the spec: the element collaborator
(`element_by_atom_type`, outside the packaged sources) resolves an
internal atom type to an element (mass, atomic number), failing when no
element matches. -/
def elementByAtomType (a : TopAtomType) : Except ConvErr (ℚ × ℕ) :=
  match a.element with
  | some e => .ok e
  | none => .error (.gmsoError ("Failed to find an element"))

/-- The assertion message of `_atom_types_from_gmso` lines 646-648. -/
def atomTypeMismatchMsg (n : String) : String :=
  "Atom type " ++ n ++ " expression does not match Parmed AtomType default expression"

/-- The assertion message of `_bond_types_from_gmso` lines 698-700. -/
def bondTypeMismatchMsg (n : String) : String :=
  "Bond type " ++ n ++ " expression does not match Parmed BondType default expression"

/-- The assertion message of `_angle_types_from_gmso` lines 736-738. -/
def angleTypeMismatchMsg (n : String) : String :=
  "Angle type " ++ n ++ " expression does not match Parmed AngleType default expression"

/-- The message `_dihedral_types_from_gmso` lines 779-781 format (and
then leave unused: line 827 raises the literal string instead). -/
def dihedralTypeMismatchMsg (n : String) : String :=
  "Dihedral type " ++ n ++
    " expression does not match Parmed DihedralType default expressions (Periodics, RBTorsions)"

/-- Elementary charge in coulomb (the unit registry value the
`.to("Coulomb")` conversion of line 655 uses). -/
def coulombPerE : ℚ := 1602176634 / 10 ^ 28

/-- The literal `1.6 * 10**(-19)` of line 657. -/
def approxE : ℚ := 16 / 10 ^ 20

/-- One external atom per site (lines 530-545).  Position is in
angstrom already; masses are not modelled. -/
def pmdAtomOfSite (st : TopAtom) : PmdAtom :=
  { name := st.name, charge := st.charge,
    xx := st.position.1, xy := st.position.2.1, xz := st.position.2.2,
    element := (st.element).getD 0, atom_type := .noneRef, typeLabel := "" }

/-- `structure.add_atom(..., resname, resnum)` grouping (lines
547-553): an atom joins the last residue when its (name, number) label
matches, otherwise opens a new residue; unlabeled sites go to
`("RES", -1)`.  `residues.claim()` merely finalizes indices. -/
def addAtomGo : List PmdResidue → ℕ → List TopAtom → List PmdResidue
  | rs, _, [] => rs
  | rs, i, st :: rest =>
      let key : String × ℤ :=
        match st.residue with
        | some (n, num) => (n, (num : ℤ))
        | none => ("RES", -1)
      let rs2 :=
        match rs.getLast? with
        | some lastR =>
            if lastR.name = key.1 && lastR.number = key.2 then
              rs.dropLast ++ [{ lastR with atoms := lastR.atoms ++ [i] }]
            else rs ++ [{ name := key.1, number := key.2, atoms := [i] }]
        | none => [{ name := key.1, number := key.2, atoms := [i] }]
      addAtomGo rs2 (i + 1) rest

def buildPmdResidues (sites : List TopAtom) : List PmdResidue :=
  addAtomGo [] 0 sites

/-- The reverse dihedral split test of lines 580-591:
`dihedral.connection_type and connection_type.expression == RB`. -/
def isRbDihedral (d : TopDihedral) : Bool :=
  match d.dihedral_type with
  | some dt => decide (dt.expression = rbExpr)
  | none => false

/-- Zipped monadic map (the per-site / per-connection back-assignment
loops run over parallel lists of the same length). -/
def exMap2 {α β γ : Type} (f : α → β → Except ConvErr γ) :
    List α → List β → Except ConvErr (List γ)
  | [], _ => .ok []
  | _, [] => .ok []
  | x :: xs, y :: ys => do
      let z ← f x y
      let zs ← exMap2 f xs ys
      .ok (z :: zs)

/-- First-match index of a `String` key. -/
def idxS {β : Type} : List (String × β) → String → Option ℕ
  | [], _ => none
  | e :: rest, k => if e.1 = k then some 0 else (idxS rest k).map (fun j => j + 1)

/-- The type-record build loop of `_atom_types_from_gmso` lines
644-674: validate each internal AtomType against the Lennard-Jones
tree, resolve its element, convert the charge through coulomb with the
literal `1.6e-19` divisor, and write the record into the name-keyed
map (a later type of the same name overwrites).  ParmEd stores
`rmin/2 = sigma * 2^(1/6) / 2`, an injective irrational rescaling of
sigma; the record keeps sigma itself, which no claim observes. -/
def atomTypeRecsGo (acc : List (String × PmdAtomType)) :
    List TopAtomType → Except ConvErr (List (String × PmdAtomType))
  | [] => .ok acc
  | a :: rest =>
      if a.expression = ljExpr then do
        let el ← elementByAtomType a
        let sg ← getParam a.parameters ("sigma")
        let ep ← getParam a.parameters ("epsilon")
        atomTypeRecsGo
          (setS acc a.name
            { name := a.name, charge := a.charge * coulombPerE / approxE,
              sigma := sg, epsilon := ep, mass := el.1, atomic_number := el.2 }) rest
      else .error (.assertionError (atomTypeMismatchMsg a.name))

/-- `_atom_types_from_gmso`: build the records, then back-assign
`pmd_atom.type` / `pmd_atom.atom_type` per site (lines 676-680;
`site.atom_type.name` raises on an untyped site). -/
def atomTypesFromGmso (top : Topology) (atoms : List PmdAtom) :
    Except ConvErr (List PmdAtomType × List PmdAtom) := do
  let amap ← atomTypeRecsGo [] top.atom_types
  let atoms2 ← exMap2
    (fun st a =>
      match st.atom_type with
      | none => .error .attributeError
      | some t =>
          match idxS amap t.name with
          | some j => .ok { a with typeLabel := t.name, atom_type := .ref j }
          | none => .error .keyError)
    top.sites atoms
  .ok (amap.map (fun e => e.2), atoms2)

/-- The validation/emission loop of `_bond_types_from_gmso` lines
696-712: each internal BondType must match the harmonic-bond tree;
the emitted record halves `k` back into the ParmEd convention. -/
def emitBondTypes : List TopBondType → Except ConvErr (List PmdBondType)
  | [] => .ok []
  | bt :: rest =>
      if bt.expression = harmonicBondExpr then do
        let kv ← getParam bt.parameters ("k")
        let rv ← getParam bt.parameters ("r_eq")
        let tl ← emitBondTypes rest
        .ok ({ k := (1/2) * kv, req := rv } :: tl)
      else .error (.assertionError (bondTypeMismatchMsg bt.name))

/-- Identity-keyed index of the canonical types, in emission order
(`btype_map` keyed by the type object). -/
def uidIndex {α : Type} (uid : α → ℕ) : ℕ → List α → List (ℕ × ℕ)
  | _, [] => []
  | i, x :: rest => (uid x, i) :: uidIndex uid (i + 1) rest

/-- `_bond_types_from_gmso`: emit the records and back-assign each
bond through `btype_map[bond.connection_type]` (an untyped bond is a
`KeyError`). -/
def bondTypesFromGmso (top : Topology) (bonds : List PmdBond) :
    Except ConvErr (List PmdBondType × List PmdBond) := do
  let recs ← emitBondTypes top.bond_types
  let m := uidIndex (fun t => t.uid) 0 top.bond_types
  let bonds2 ← exMap2
    (fun b pb =>
      match b.bond_type with
      | none => .error .keyError
      | some t =>
          match lookupN m t.uid with
          | some j => .ok { pb with type := .ref j }
          | none => .error .keyError)
    top.bonds bonds
  .ok (recs, bonds2)

/-- The validation/emission loop of `_angle_types_from_gmso` lines
734-754. -/
def emitAngleTypes : List TopAngleType → Except ConvErr (List PmdAngleType)
  | [] => .ok []
  | a :: rest =>
      if a.expression = harmonicAngleExpr then do
        let kv ← getParam a.parameters ("k")
        let tv ← getParam a.parameters ("theta_eq")
        let tl ← emitAngleTypes rest
        .ok ({ k := (1/2) * kv, theteq := tv } :: tl)
      else .error (.assertionError (angleTypeMismatchMsg a.name))

/-- `_angle_types_from_gmso`. -/
def angleTypesFromGmso (top : Topology) (angles : List PmdAngle) :
    Except ConvErr (List PmdAngleType × List PmdAngle) := do
  let recs ← emitAngleTypes top.angle_types
  let m := uidIndex (fun t => t.uid) 0 top.angle_types
  let angles2 ← exMap2
    (fun a pa =>
      match a.angle_type with
      | none => .error .keyError
      | some t =>
          match lookupN m t.uid with
          | some j => .ok { pa with type := .ref j }
          | none => .error .keyError)
    top.angles angles
  .ok (recs, angles2)

/-- Where an emitted dihedral type record landed: the periodic list or
the RB list, at the given index. -/
inductive DKind where
  | per (j : ℕ)
  | rb (j : ℕ)
deriving DecidableEq, Repr

/-- The validation/emission loop of `_dihedral_types_from_gmso` lines
777-828: a type matching `k * (1 + cos(n * phi - phi_eq))**2` emits a
periodic record, one matching the RB tree emits an RB record, anything
else raises `GMSOError("msg")` — the source formats the message naming
the type (see `dihedralTypeMismatchMsg`) but raises the literal string
`"msg"` instead. -/
def emitDihedralTypes :
    ℕ → ℕ → List TopDihedralType →
    Except ConvErr (List PmdDihedralTypeR × List PmdRBTorsionType × List (ℕ × DKind))
  | _, _, [] => .ok ([], [], [])
  | np, nr, dt :: rest =>
      if dt.expression = periodicSquaredExpr then do
        let kv ← getParam dt.parameters ("k")
        let pv ← getParam dt.parameters ("phi_eq")
        let nv ← getParam dt.parameters ("n")
        let (ps, rs, m) ← emitDihedralTypes (np + 1) nr rest
        .ok ({ phi_k := kv, per := nv, phase := pv } :: ps, rs, (dt.uid, .per np) :: m)
      else if dt.expression = rbExpr then do
        let c0 ← getParam dt.parameters ("c0")
        let c1 ← getParam dt.parameters ("c1")
        let c2 ← getParam dt.parameters ("c2")
        let c3 ← getParam dt.parameters ("c3")
        let c4 ← getParam dt.parameters ("c4")
        let c5 ← getParam dt.parameters ("c5")
        let (ps, rs, m) ← emitDihedralTypes np (nr + 1) rest
        .ok (ps, { c0 := c0, c1 := c1, c2 := c2, c3 := c3, c4 := c4, c5 := c5 } :: rs,
             (dt.uid, .rb nr) :: m)
      else .error (.gmsoError ("msg"))

/-- The back-assignment of one dihedral through
`dtype_map[dihedral.connection_type]`. -/
def assignDihedralType (m : List (ℕ × DKind)) (d : TopDihedral) : Except ConvErr PmdTypeRef :=
  match d.dihedral_type with
  | none => .error .keyError
  | some t =>
      match lookupN m t.uid with
      | some (.per j) => .ok (.ref j)
      | some (.rb j) => .ok (.ref j)
      | none => .error .keyError

/-- A ParmEd dihedral entry from an internal dihedral (member sites
are atom indices; `improper` stays false on the reverse path). -/
def pmdDihedralOfTop (d : TopDihedral) (tref : PmdTypeRef) : PmdDihedral :=
  { atom1 := nthD 0 d.connection_members 0, atom2 := nthD 0 d.connection_members 1,
    atom3 := nthD 0 d.connection_members 2, atom4 := nthD 0 d.connection_members 3,
    improper := false, type := tref }

def pmdRbOfTop (d : TopDihedral) (tref : PmdTypeRef) : PmdRBTorsion :=
  { atom1 := nthD 0 d.connection_members 0, atom2 := nthD 0 d.connection_members 1,
    atom3 := nthD 0 d.connection_members 2, atom4 := nthD 0 d.connection_members 3,
    improper := false, type := tref }

/-- `to_parmed(top, refer_type)`: the reverse converter.  Atoms are
emitted per site (the atom index equals the site index), residues are
grouped by the site residue labels, bonds/angles are emitted untyped,
the dihedrals are split into the periodic and RB external collections
by the RB expression test, and, under type transfer, each non-empty
internal type view runs its `_X_types_from_gmso` step (validation,
emission, back-assignment); the collection `claim()` calls only
finalize indices. -/
def to_parmed (top : Topology) (referType : Bool) : Except ConvErr PmdStructure := do
  let boxArr := toParmedBoxArr top.box
  let atoms0 := top.sites.map pmdAtomOfSite
  let residues := buildPmdResidues top.sites
  let bonds0 : List PmdBond := top.bonds.map (fun b =>
    { atom1 := nthD 0 b.connection_members 0, atom2 := nthD 0 b.connection_members 1,
      type := .noneRef })
  let angles0 : List PmdAngle := top.angles.map (fun a =>
    { atom1 := nthD 0 a.connection_members 0, atom2 := nthD 0 a.connection_members 1,
      atom3 := nthD 0 a.connection_members 2, type := .noneRef })
  let perTop := top.dihedrals.filter (fun d => !isRbDihedral d)
  let rbTop := top.dihedrals.filter (fun d => isRbDihedral d)
  let (arena, atoms1) ←
    if referType && !top.atom_types.isEmpty then atomTypesFromGmso top atoms0
    else .ok ([], atoms0)
  let (bondTypeRecs, bonds1) ←
    if referType && !top.bond_types.isEmpty then bondTypesFromGmso top bonds0
    else .ok ([], bonds0)
  let (angleTypeRecs, angles1) ←
    if referType && !top.angle_types.isEmpty then angleTypesFromGmso top angles0
    else .ok ([], angles0)
  let (dihedralTypeRecs, rbTypeRecs, perOut, rbOut) ←
    if referType && !top.dihedral_types.isEmpty then do
      let (ps, rs, m) ← emitDihedralTypes 0 0 top.dihedral_types
      let perOut ← exMap (fun d => do
          let tr ← assignDihedralType m d
          .ok (pmdDihedralOfTop d tr)) perTop
      let rbOut ← exMap (fun d => do
          let tr ← assignDihedralType m d
          .ok (pmdRbOfTop d tr)) rbTop
      .ok (ps, rs, perOut, rbOut)
    else
      .ok ([], [], perTop.map (fun d => pmdDihedralOfTop d .noneRef),
           rbTop.map (fun d => pmdRbOfTop d .noneRef))
  .ok { title := top.name, box := boxArr, residues := residues, atoms := atoms1,
        bonds := bonds1, angles := angles1, dihedrals := perOut,
        rb_torsions := rbOut, impropers := [],
        atom_type_records := arena, bond_types := bondTypeRecs,
        angle_types := angleTypeRecs, dihedral_types := dihedralTypeRecs,
        rb_torsion_types := rbTypeRecs, improper_types := [],
        -- `to_parmed` never sets the combining rule; a fresh
        -- `pmd.Structure` carries the ParmEd default.
        combining_rule := "lorentz" }

/-! ## Well-formed external structures -/

/-- A type reference is well formed when a real reference points into
the per-kind record list (absent / wrong-class references are always
fine: forward conversion must tolerate them). -/
def wfRef (n : ℕ) : PmdTypeRef → Bool
  | .ref i => decide (i < n)
  | _ => true

/-- No duplicates in an index list. -/
def nodupB : List ℕ → Bool
  | [] => true
  | x :: xs => !xs.contains x && nodupB xs

/-- Well-formedness of an external structure: the states that
correspond to an actual ParmEd object graph.  Residues hold existing
atoms, each atom belongs to one residue, every connection references
atoms owned by some residue (Python holds the objects themselves, so
references cannot dangle), every typed instance references a record of
the matching type list, and a box is `None` or six components. -/
def wfS (s : PmdStructure) : Bool :=
  (flatAtoms s).all (fun a => decide (a < s.atoms.length)) &&
  nodupB (flatAtoms s) &&
  s.atoms.all (fun a => wfRef s.atom_type_records.length a.atom_type) &&
  s.bonds.all (fun b =>
    (flatAtoms s).contains b.atom1 && (flatAtoms s).contains b.atom2 &&
    wfRef s.bond_types.length b.type) &&
  s.angles.all (fun a =>
    (flatAtoms s).contains a.atom1 && (flatAtoms s).contains a.atom2 &&
    (flatAtoms s).contains a.atom3 && wfRef s.angle_types.length a.type) &&
  s.dihedrals.all (fun d =>
    (flatAtoms s).contains d.atom1 && (flatAtoms s).contains d.atom2 &&
    (flatAtoms s).contains d.atom3 && (flatAtoms s).contains d.atom4 &&
    wfRef s.dihedral_types.length d.type) &&
  s.rb_torsions.all (fun r =>
    (flatAtoms s).contains r.atom1 && (flatAtoms s).contains r.atom2 &&
    (flatAtoms s).contains r.atom3 && (flatAtoms s).contains r.atom4 &&
    wfRef s.rb_torsion_types.length r.type) &&
  s.impropers.all (fun p =>
    (flatAtoms s).contains p.atom1 && (flatAtoms s).contains p.atom2 &&
    (flatAtoms s).contains p.atom3 && (flatAtoms s).contains p.atom4 &&
    wfRef s.improper_types.length p.type) &&
  (match s.box with
   | none => true
   | some l => decide (l.length = 6))

/-! ## The claimed residue condition, in the words of the spec -/

/-- The residue (index) owning an atom, if any. -/
def residueOfAtomGo : ℕ → List PmdResidue → ℕ → Option ℕ
  | _, [], _ => none
  | i, r :: rest, a =>
      if r.atoms.contains a then some i else residueOfAtomGo (i + 1) rest a

def residueOfAtom (s : PmdStructure) (a : ℕ) : Option ℕ :=
  residueOfAtomGo 0 s.residues a

/-- Bond partners of `a` within the residue `r`. -/
def resNeighbors (s : PmdStructure) (r : PmdResidue) (a : ℕ) : List ℕ :=
  (bondPartners s a).filter (fun x => r.atoms.contains x)

/-- One breadth step of reachability inside a residue. -/
def expandOnce (s : PmdStructure) (r : PmdResidue) (seen : List ℕ) : List ℕ :=
  seen ++ ((seen.map (resNeighbors s r)).flatten.filter (fun x => !seen.contains x))

def reachIter (s : PmdStructure) (r : PmdResidue) : ℕ → List ℕ → List ℕ
  | 0, seen => seen
  | n + 1, seen => reachIter s r n (expandOnce s r seen)

/-- The bond graph induced on one residue is connected (every atom of
the residue is reachable from its first atom through bonds staying in
the residue). -/
def residueConnected (s : PmdStructure) (r : PmdResidue) : Bool :=
  match r.atoms with
  | [] => true
  | a :: _ => r.atoms.all (fun x => (reachIter s r r.atoms.length [a]).contains x)

/-- The condition the claim states for molecule labeling, following
the words of the spec: each residue of the structure forms an
independent connected subgraph under the bond graph — no bond crosses
a residue boundary and the bond graph induced on every residue is
connected.  (This is the claimed condition, stated for comparison with
the source function `_check_independent_residues`; it is not a
translation of source code.) -/
def specIndependentConnected (s : PmdStructure) : Bool :=
  s.bonds.all (fun b => decide (residueOfAtom s b.atom1 = residueOfAtom s b.atom2)) &&
  s.residues.all (fun r => residueConnected s r)

/-! ## Concrete inputs for the witnesses and counterexamples -/

/-- A minimal external atom. -/
def mkAtom (n : String) : PmdAtom :=
  { name := n, charge := 0, xx := 0, xy := 0, xz := 0, element := 0,
    atom_type := .noneRef, typeLabel := "" }

/-- An empty external structure to grow concrete inputs from. -/
def emptyS : PmdStructure :=
  { title := "t", box := none, residues := [], atoms := [], bonds := [],
    angles := [], dihedrals := [], rb_torsions := [], impropers := [],
    atom_type_records := [], bond_types := [], angle_types := [],
    dihedral_types := [], rb_torsion_types := [], improper_types := [],
    combining_rule := "lorentz" }

/-- Four atoms in one residue; one shared periodic dihedral type
record referenced by two plain and two improper-flagged dihedral
instances, and one shared RB torsion type record referenced by two RB
torsion instances. -/
def sC1 : PmdStructure :=
  { emptyS with
    residues := [{ name := "R1", number := 1, atoms := [0, 1, 2, 3] }],
    atoms := [mkAtom ("a0"), mkAtom ("a1"), mkAtom ("a2"), mkAtom ("a3")],
    dihedral_types := [{ phi_k := 1, per := 2, phase := 0 }],
    rb_torsion_types := [{ c0 := 1, c1 := 1, c2 := 1, c3 := 1, c4 := 1, c5 := 1 }],
    dihedrals := [{ atom1 := 0, atom2 := 1, atom3 := 2, atom4 := 3,
                    improper := false, type := .ref 0 },
                  { atom1 := 3, atom2 := 2, atom3 := 1, atom4 := 0,
                    improper := false, type := .ref 0 },
                  { atom1 := 1, atom2 := 0, atom3 := 2, atom4 := 3,
                    improper := true, type := .ref 0 },
                  { atom1 := 2, atom2 := 0, atom3 := 1, atom4 := 3,
                    improper := true, type := .ref 0 }],
    rb_torsions := [{ atom1 := 0, atom2 := 2, atom3 := 1, atom4 := 3,
                      improper := false, type := .ref 0 },
                    { atom1 := 3, atom2 := 1, atom3 := 2, atom4 := 0,
                      improper := false, type := .ref 0 }] }

/-- One typed periodic dihedral, used to drive the failing round
trip. -/
def sC2 : PmdStructure :=
  { emptyS with
    residues := [{ name := "R1", number := 1, atoms := [0, 1, 2, 3] }],
    atoms := [mkAtom ("a0"), mkAtom ("a1"), mkAtom ("a2"), mkAtom ("a3")],
    dihedral_types := [{ phi_k := 1, per := 1, phase := 0 }],
    dihedrals := [{ atom1 := 0, atom2 := 1, atom3 := 2, atom4 := 3,
                    improper := false, type := .ref 0 }] }

/-- The valuation used to separate the two periodic trees: `k = 1`,
every other symbol `0`. -/
def vC2 : String → ℚ := fun x => if x = "k" then 1 else 0

/-- A cosine interpretation agreeing with the real cosine at the
sample point (`cos 0 = 1`), under which the two trees evaluate
differently. -/
def cC2 : ℚ → ℚ := fun x => if x = 0 then 1 else 0

/-- A topology holding one dihedral whose type has an unrecognized
expression and a recognizable name. -/
def mkBareSite (n : String) : TopAtom :=
  { name := n, charge := 0, position := (0, 0, 0), element := none,
    residue := none, molecule := none, atom_type := none }

def tC3 : Topology :=
  { name := "t", box := none,
    sites := [mkBareSite ("s0"), mkBareSite ("s1"), mkBareSite ("s2"), mkBareSite ("s3")],
    bonds := [], angles := [],
    dihedrals := [{ connection_members := [0, 1, 2, 3],
                    dihedral_type := some
                      { uid := 0, name := "bad_dihedral_type",
                        expression := .var ("phi"), parameters := [],
                        member_types := none } }],
    impropers := [], combining_rule := "lorentz" }

/-- One improper-flagged periodic dihedral. -/
def sC4 : PmdStructure :=
  { emptyS with
    residues := [{ name := "R1", number := 1, atoms := [0, 1, 2, 3] }],
    atoms := [mkAtom ("a0"), mkAtom ("a1"), mkAtom ("a2"), mkAtom ("a3")],
    dihedrals := [{ atom1 := 0, atom2 := 1, atom3 := 2, atom4 := 3,
                    improper := true, type := .noneRef }] }

/-- One improper-flagged RB torsion with a real RB type. -/
def sC5 : PmdStructure :=
  { emptyS with
    residues := [{ name := "R1", number := 1, atoms := [0, 1, 2, 3] }],
    atoms := [mkAtom ("a0"), mkAtom ("a1"), mkAtom ("a2"), mkAtom ("a3")],
    rb_torsion_types := [{ c0 := 1, c1 := 1, c2 := 1, c3 := 1, c4 := 1, c5 := 1 }],
    rb_torsions := [{ atom1 := 0, atom2 := 1, atom3 := 2, atom4 := 3,
                      improper := true, type := .ref 0 }] }

/-- One residue whose induced bond graph has two components (bonds
0-1 and 2-3) and no crossing bond: not connected, yet the source check
passes. -/
def sC6 : PmdStructure :=
  { emptyS with
    residues := [{ name := "R1", number := 1, atoms := [0, 1, 2, 3] }],
    atoms := [mkAtom ("a0"), mkAtom ("a1"), mkAtom ("a2"), mkAtom ("a3")],
    bonds := [{ atom1 := 0, atom2 := 1, type := .noneRef },
              { atom1 := 2, atom2 := 3, type := .noneRef }] }

/-- Two residues joined by a crossing bond (the check fails, so no
molecule labels). -/
def sC6b : PmdStructure :=
  { emptyS with
    residues := [{ name := "R1", number := 1, atoms := [0, 1] },
                 { name := "R2", number := 2, atoms := [2, 3] }],
    atoms := [mkAtom ("a0"), mkAtom ("a1"), mkAtom ("a2"), mkAtom ("a3")],
    bonds := [{ atom1 := 0, atom2 := 1, type := .noneRef },
              { atom1 := 1, atom2 := 2, type := .noneRef },
              { atom1 := 2, atom2 := 3, type := .noneRef }] }

/-- A topology whose box round trips through the external array. -/
def tC8 : Topology :=
  { name := "t", box := some { lx := 2, ly := 2, lz := 2, alpha := 90, beta := 90, gamma := 90 },
    sites := [], bonds := [], angles := [], dihedrals := [], impropers := [],
    combining_rule := "lorentz" }

/-- A structure whose box array has a zero entry. -/
def sC9 : PmdStructure :=
  { emptyS with box := some [20, 20, 20, 90, 90, 0] }

/-- Untyped and wrongly-typed connections of every kind. -/
def sC10 : PmdStructure :=
  { emptyS with
    residues := [{ name := "R1", number := 1, atoms := [0, 1, 2, 3] }],
    atoms := [mkAtom ("a0"), mkAtom ("a1"), mkAtom ("a2"), mkAtom ("a3")],
    bonds := [{ atom1 := 0, atom2 := 1, type := .noneRef }],
    angles := [{ atom1 := 0, atom2 := 1, atom3 := 2, type := .wrongClass 7 }],
    dihedrals := [{ atom1 := 0, atom2 := 1, atom3 := 2, atom4 := 3,
                    improper := false, type := .noneRef },
                  { atom1 := 0, atom2 := 1, atom3 := 2, atom4 := 3,
                    improper := true, type := .wrongClass 9 }],
    rb_torsions := [{ atom1 := 0, atom2 := 1, atom3 := 2, atom4 := 3,
                      improper := false, type := .noneRef }],
    impropers := [{ atom1 := 0, atom2 := 1, atom3 := 2, atom4 := 3,
                    type := .noneRef }] }

/-- `[n, n+1, ..., n+m-1]`, the uid/key stream a construction loop
consumes. -/
def rangeFrom : ℕ → ℕ → List ℕ
  | _, 0 => []
  | n, m + 1 => n :: rangeFrom (n + 1) m

/-- A type reference that is absent or not an instance of the expected
external class. -/
def notRealType (tr : PmdTypeRef) : Prop :=
  tr = PmdTypeRef.noneRef ∨ ∃ o, tr = PmdTypeRef.wrongClass o

/-! # Lemmas -/

theorem exMap_ok {α β : Type} (f : α → Except ConvErr β) (g : α → β) :
    ∀ l : List α, (∀ a ∈ l, f a = .ok (g a)) → exMap f l = .ok (l.map g)
  | [], _ => rfl
  | x :: xs, h => by
      have hx := h x (by simp)
      have hxs := exMap_ok f g xs (fun a ha => h a (by simp [ha]))
      simp only [exMap, hx, hxs, List.map_cons]
      rfl

theorem nthD_mem {α : Type} (d : α) : ∀ (l : List α) (i : ℕ), i < l.length → nthD d l i ∈ l
  | x :: xs, 0, _ => by simp [nthD]
  | x :: xs, i + 1, h => by
      have := nthD_mem d xs i (by simpa using h)
      simp [nthD, this]

theorem getOrErr_ok {α : Type} (d : α) :
    ∀ (l : List α) (i : ℕ), i < l.length → getOrErr l i = .ok (nthD d l i)
  | x :: xs, 0, _ => rfl
  | x :: xs, i + 1, h => by
      simpa [getOrErr, nthD] using getOrErr_ok d xs i (by simpa using h)

theorem lookupN_cons {β : Type} (k j : ℕ) (v : β) (m : List (ℕ × β)) :
    lookupN ((j, v) :: m) k = if j = k then some v else lookupN m k := by
  by_cases h : j = k <;> simp [lookupN, List.find?, h]

theorem lookupA_cons {β : Type} (k j : PmdId) (v : β) (m : List (PmdId × β)) :
    lookupA ((j, v) :: m) k = if j = k then some v else lookupA m k := by
  by_cases h : j = k <;> simp [lookupA, List.find?, h]

theorem lookupA_append {β : Type} (k : PmdId) :
    ∀ (m1 m2 : List (PmdId × β)),
      lookupA (m1 ++ m2) k = (lookupA m1 k).orElse (fun _ => lookupA m2 k)
  | [], m2 => by simp [lookupA]
  | e :: m1, m2 => by
      by_cases h : e.1 = k
      · simp [lookupA, List.find?, h]
      · have := lookupA_append k m1 m2
        simpa [lookupA, List.find?, h] using this

theorem foldlDedup_mono (x : ℕ) :
    ∀ (l acc : List ℕ), x ∈ acc →
      x ∈ l.foldl (fun acc i => if acc.contains i then acc else acc ++ [i]) acc
  | [], _, h => h
  | y :: l, acc, h => by
      rw [List.foldl_cons]
      by_cases hc : acc.contains y = true
      · rw [if_pos hc]
        exact foldlDedup_mono x l acc h
      · rw [if_neg hc]
        exact foldlDedup_mono x l (acc ++ [y]) (by simp [h])

theorem foldlDedup_of_mem (x : ℕ) :
    ∀ (l acc : List ℕ), x ∈ l →
      x ∈ l.foldl (fun acc i => if acc.contains i then acc else acc ++ [i]) acc
  | y :: l, acc, h => by
      rw [List.foldl_cons]
      rcases List.mem_cons.mp h with h1 | h2
      · subst h1
        by_cases hc : acc.contains x = true
        · rw [if_pos hc]
          exact foldlDedup_mono x l acc (by simpa using hc)
        · rw [if_neg hc]
          exact foldlDedup_mono x l (acc ++ [x]) (by simp)
      · by_cases hc : acc.contains y = true
        · rw [if_pos hc]
          exact foldlDedup_of_mem x l acc h2
        · rw [if_neg hc]
          exact foldlDedup_of_mem x l (acc ++ [y]) h2

theorem foldlDedup_sub (x : ℕ) :
    ∀ (l acc : List ℕ),
      x ∈ l.foldl (fun acc i => if acc.contains i then acc else acc ++ [i]) acc →
      x ∈ acc ∨ x ∈ l
  | [], acc, h => Or.inl (by simpa using h)
  | y :: l, acc, h => by
      rw [List.foldl_cons] at h
      by_cases hc : acc.contains y = true
      · rw [if_pos hc] at h
        rcases foldlDedup_sub x l acc h with h1 | h2
        · exact Or.inl h1
        · exact Or.inr (by simp [h2])
      · rw [if_neg hc] at h
        rcases foldlDedup_sub x l (acc ++ [y]) h with h1 | h2
        · rcases List.mem_append.mp h1 with h3 | h4
          · exact Or.inl h3
          · exact Or.inr (by simpa using Or.inl (by simpa using h4))
        · exact Or.inr (by simp [h2])

/-- The nine conjuncts of well-formedness, in declaration order. -/
theorem wf_parts (s : PmdStructure) (hwf : wfS s = true) :
    ((flatAtoms s).all (fun a => decide (a < s.atoms.length)) = true) ∧
    (nodupB (flatAtoms s) = true) ∧
    (s.atoms.all (fun a => wfRef s.atom_type_records.length a.atom_type) = true) ∧
    (s.bonds.all (fun b =>
      (flatAtoms s).contains b.atom1 && (flatAtoms s).contains b.atom2 &&
      wfRef s.bond_types.length b.type) = true) ∧
    (s.angles.all (fun a =>
      (flatAtoms s).contains a.atom1 && (flatAtoms s).contains a.atom2 &&
      (flatAtoms s).contains a.atom3 && wfRef s.angle_types.length a.type) = true) ∧
    (s.dihedrals.all (fun d =>
      (flatAtoms s).contains d.atom1 && (flatAtoms s).contains d.atom2 &&
      (flatAtoms s).contains d.atom3 && (flatAtoms s).contains d.atom4 &&
      wfRef s.dihedral_types.length d.type) = true) ∧
    (s.rb_torsions.all (fun r =>
      (flatAtoms s).contains r.atom1 && (flatAtoms s).contains r.atom2 &&
      (flatAtoms s).contains r.atom3 && (flatAtoms s).contains r.atom4 &&
      wfRef s.rb_torsion_types.length r.type) = true) ∧
    (s.impropers.all (fun p =>
      (flatAtoms s).contains p.atom1 && (flatAtoms s).contains p.atom2 &&
      (flatAtoms s).contains p.atom3 && (flatAtoms s).contains p.atom4 &&
      wfRef s.improper_types.length p.type) = true) ∧
    ((match s.box with
      | none => true
      | some l => decide (l.length = 6)) = true) := by
  simp only [wfS, Bool.and_eq_true] at hwf
  obtain ⟨⟨⟨⟨⟨⟨⟨⟨hA, hB⟩, hC⟩, hD⟩, hE⟩, hF⟩, hG⟩, hH⟩, hI⟩ := hwf
  exact ⟨hA, hB, hC, hD, hE, hF, hG, hH, hI⟩

theorem ref_mem_uniqueRefs (s : PmdStructure) (a : PmdAtom) (i : ℕ)
    (ha : a ∈ s.atoms) (ht : a.atom_type = .ref i) : i ∈ uniqueAtomTypeRefs s := by
  have hm : i ∈ s.atoms.filterMap
      (fun a => match a.atom_type with | .ref i => some i | _ => none) := by
    refine List.mem_filterMap.mpr ⟨a, ha, ?_⟩
    simp [ht]
  exact foldlDedup_of_mem i _ [] hm

theorem uniqueRefs_exists_atom (s : PmdStructure) (i : ℕ)
    (h : i ∈ uniqueAtomTypeRefs s) : ∃ a ∈ s.atoms, a.atom_type = .ref i := by
  rcases foldlDedup_sub i _ [] h with h1 | h2
  · simp at h1
  · rcases List.mem_filterMap.mp h2 with ⟨a, ha, hfa⟩
    refine ⟨a, ha, ?_⟩
    rcases hta : a.atom_type with _ | o | j <;> simp [hta] at hfa
    simp [hfa]

theorem atomTypesFromPmdGo_ok (arena : List PmdAtomType) :
    ∀ (l : List ℕ) (n : ℕ), (∀ i ∈ l, i < arena.length) →
      atomTypesFromPmdGo arena n l = .ok (atomTypesTotalGo arena n l)
  | [], _, _ => rfl
  | i :: l, n, h => by
      have hb : i < arena.length := h i (by simp)
      have := atomTypesFromPmdGo_ok arena l (n + 1) (fun j hj => h j (by simp [hj]))
      simp only [atomTypesFromPmdGo, atomTypesTotalGo,
        getOrErr_ok { name := "", charge := 0, sigma := 0, epsilon := 0,
                      mass := 0, atomic_number := 0 } arena i hb, this]
      rfl

theorem atomTypesFromPmd_ok (s : PmdStructure) (hwf : wfS s = true) :
    atomTypesFromPmd s = .ok (atomTypesTotal s) := by
  apply atomTypesFromPmdGo_ok
  intro i hi
  rcases uniqueRefs_exists_atom s i hi with ⟨a, ha, ht⟩
  have hall := (wf_parts s hwf).2.2.1
  have := (List.all_eq_true.mp hall) a ha
  rw [ht] at this
  simpa [wfRef] using this

theorem lookupN_atomTypesTotalGo (arena : List PmdAtomType) :
    ∀ (l : List ℕ) (n i : ℕ), i ∈ l →
      (lookupN (atomTypesTotalGo arena n l) i).isSome
  | j :: l, n, i, h => by
      by_cases he : j = i
      · simp [atomTypesTotalGo, lookupN_cons, he]
      · rcases List.mem_cons.mp h with h1 | h2
        · exact absurd h1.symm he
        · simpa [atomTypesTotalGo, lookupN_cons, he] using
            lookupN_atomTypesTotalGo arena l (n + 1) i h2

theorem lookupN_siteMapGo :
    ∀ (l : List ℕ) (n a : ℕ), a ∈ l → (lookupN (siteMapGo n l) a).isSome
  | b :: l, n, a, h => by
      by_cases he : b = a
      · simp [siteMapGo, lookupN_cons, he]
      · rcases List.mem_cons.mp h with h1 | h2
        · exact absurd h1.symm he
        · simpa [siteMapGo, lookupN_cons, he] using lookupN_siteMapGo l (n + 1) a h2

theorem smLookupE_ok (s : PmdStructure) (a : ℕ) (h : a ∈ flatAtoms s) :
    smLookupE s a = .ok (smLookup s a) := by
  have := lookupN_siteMapGo (flatAtoms s) 0 a h
  rcases hv : lookupN (buildSiteMap s) a with _ | v
  · rw [buildSiteMap] at hv
    simp [hv] at this
  · simp [smLookupE, smLookup, hv]

theorem lookupN_bondGo (mm : List (PmdId × List String)) :
    ∀ (l : List PmdBondType) (n j : ℕ), j < l.length →
      (lookupN (bondTypesFromPmdGo mm n l) (n + j)).isSome
  | bt :: l, n, 0, _ => by simp [bondTypesFromPmdGo, lookupN_cons]
  | bt :: l, n, j + 1, h => by
      have ih := lookupN_bondGo mm l (n + 1) j (by simpa using h)
      have harith : n + 1 + j = n + (j + 1) := by omega
      rw [harith] at ih
      have hne : ¬ n = n + (j + 1) := by omega
      simpa [bondTypesFromPmdGo, lookupN_cons, hne] using ih

theorem lookupN_angleGo (mm : List (PmdId × List String)) :
    ∀ (l : List PmdAngleType) (n j : ℕ), j < l.length →
      (lookupN (angleTypesFromPmdGo mm n l) (n + j)).isSome
  | agt :: l, n, 0, _ => by simp [angleTypesFromPmdGo, lookupN_cons]
  | agt :: l, n, j + 1, h => by
      have ih := lookupN_angleGo mm l (n + 1) j (by simpa using h)
      have harith : n + 1 + j = n + (j + 1) := by omega
      rw [harith] at ih
      have hne : ¬ n = n + (j + 1) := by omega
      simpa [angleTypesFromPmdGo, lookupN_cons, hne] using ih

theorem lookupA_dihedGoA (mm : List (PmdId × List String)) :
    ∀ (l : List PmdDihedralTypeR) (n j : ℕ), j < l.length →
      (lookupA (dihedralTypesFromPmdGoA mm n l) (.dihedT (n + j))).isSome
  | dt :: l, n, 0, _ => by simp [dihedralTypesFromPmdGoA, lookupA_cons]
  | dt :: l, n, j + 1, h => by
      have ih := lookupA_dihedGoA mm l (n + 1) j (by simpa using h)
      have harith : n + 1 + j = n + (j + 1) := by omega
      rw [harith] at ih
      have hne : ¬ PmdId.dihedT n = PmdId.dihedT (n + (j + 1)) := by
        intro hcon
        injection hcon with h2
        omega
      simpa [dihedralTypesFromPmdGoA, lookupA_cons, hne] using ih

theorem lookupA_dihedGoA_rb (mm : List (PmdId × List String)) :
    ∀ (l : List PmdDihedralTypeR) (n j : ℕ),
      lookupA (dihedralTypesFromPmdGoA mm n l) (.rbT j) = none
  | [], _, _ => rfl
  | dt :: l, n, j => by
      have := lookupA_dihedGoA_rb mm l (n + 1) j
      simpa [dihedralTypesFromPmdGoA, lookupA_cons] using this

theorem lookupA_dihedGoB (mm : List (PmdId × List String)) (base : ℕ) :
    ∀ (l : List PmdRBTorsionType) (n j : ℕ), j < l.length →
      ∃ T, lookupA (dihedralTypesFromPmdGoB mm base n l) (.rbT (n + j)) = some T ∧
        T.expression = rbExpr
  | rt :: l, n, 0, _ => by
      simp only [Nat.add_zero]
      rw [dihedralTypesFromPmdGoB, lookupA_cons, if_pos rfl]
      exact ⟨_, rfl, rfl⟩
  | rt :: l, n, j + 1, h => by
      rcases lookupA_dihedGoB mm base l (n + 1) j (by simpa using h) with ⟨T, hT, hE⟩
      have harith : n + 1 + j = n + (j + 1) := by omega
      rw [harith] at hT
      have hne : ¬ PmdId.rbT n = PmdId.rbT (n + (j + 1)) := by
        intro hcon
        injection hcon with h2
        omega
      exact ⟨T, by simpa [dihedralTypesFromPmdGoB, lookupA_cons, hne] using hT, hE⟩

theorem lookupA_impGoA (mm : List (PmdId × List String)) :
    ∀ (l : List PmdDihedralTypeR) (n j : ℕ), j < l.length →
      (lookupA (improperTypesFromPmdGoA mm n l) (.dihedT (n + j))).isSome
  | dt :: l, n, 0, _ => by simp [improperTypesFromPmdGoA, lookupA_cons]
  | dt :: l, n, j + 1, h => by
      have ih := lookupA_impGoA mm l (n + 1) j (by simpa using h)
      have harith : n + 1 + j = n + (j + 1) := by omega
      rw [harith] at ih
      have hne : ¬ PmdId.dihedT n = PmdId.dihedT (n + (j + 1)) := by
        intro hcon
        injection hcon with h2
        omega
      simpa [improperTypesFromPmdGoA, lookupA_cons, hne] using ih

theorem lookupA_impGoA_imp (mm : List (PmdId × List String)) :
    ∀ (l : List PmdDihedralTypeR) (n j : ℕ),
      lookupA (improperTypesFromPmdGoA mm n l) (.impT j) = none
  | [], _, _ => rfl
  | dt :: l, n, j => by
      have := lookupA_impGoA_imp mm l (n + 1) j
      simpa [improperTypesFromPmdGoA, lookupA_cons] using this

theorem lookupA_impGoB (mm : List (PmdId × List String)) (base : ℕ) :
    ∀ (l : List PmdImproperType) (n j : ℕ), j < l.length →
      (lookupA (improperTypesFromPmdGoB mm base n l) (.impT (n + j))).isSome
  | it :: l, n, 0, _ => by simp [improperTypesFromPmdGoB, lookupA_cons]
  | it :: l, n, j + 1, h => by
      have ih := lookupA_impGoB mm base l (n + 1) j (by simpa using h)
      have harith : n + 1 + j = n + (j + 1) := by omega
      rw [harith] at ih
      have hne : ¬ PmdId.impT n = PmdId.impT (n + (j + 1)) := by
        intro hcon
        injection hcon with h2
        omega
      simpa [improperTypesFromPmdGoB, lookupA_cons, hne] using ih

theorem rangeFrom_append (b : ℕ) :
    ∀ (a n : ℕ), rangeFrom n (a + b) = rangeFrom n a ++ rangeFrom (n + a) b
  | 0, n => by simp [rangeFrom]
  | a + 1, n => by
      have := rangeFrom_append b a (n + 1)
      have harith : a + 1 + b = (a + b) + 1 := by omega
      have harith2 : n + 1 + a = n + (a + 1) := by omega
      rw [harith]
      simp only [rangeFrom, this, harith2, List.cons_append]

theorem mem_rangeFrom (x : ℕ) : ∀ (m n : ℕ), x ∈ rangeFrom n m ↔ n ≤ x ∧ x < n + m
  | 0, n => by
      simp only [rangeFrom, List.not_mem_nil, false_iff]
      omega
  | m + 1, n => by
      simp only [rangeFrom, List.mem_cons, mem_rangeFrom x m (n + 1)]
      omega

theorem nodup_rangeFrom : ∀ (m n : ℕ), (rangeFrom n m).Nodup
  | 0, _ => by simp [rangeFrom]
  | m + 1, n => by
      simp only [rangeFrom, List.nodup_cons]
      refine ⟨?_, nodup_rangeFrom m (n + 1)⟩
      intro h
      have := (mem_rangeFrom n m (n + 1)).mp h
      omega

theorem map_uid_dihedGoA (mm : List (PmdId × List String)) :
    ∀ (l : List PmdDihedralTypeR) (n : ℕ),
      (dihedralTypesFromPmdGoA mm n l).map (fun e => e.2.uid) = rangeFrom n l.length
  | [], _ => rfl
  | dt :: l, n => by
      simp only [dihedralTypesFromPmdGoA, List.map_cons, List.length_cons, rangeFrom,
        map_uid_dihedGoA mm l (n + 1)]

theorem map_uid_dihedGoB (mm : List (PmdId × List String)) (base : ℕ) :
    ∀ (l : List PmdRBTorsionType) (n : ℕ),
      (dihedralTypesFromPmdGoB mm base n l).map (fun e => e.2.uid) = rangeFrom (base + n) l.length
  | [], _ => rfl
  | rt :: l, n => by
      have harith : base + n + 1 = base + (n + 1) := by omega
      simp only [dihedralTypesFromPmdGoB, List.map_cons, List.length_cons, rangeFrom,
        map_uid_dihedGoB mm base l (n + 1), harith]

theorem map_fst_dihedGoA (mm : List (PmdId × List String)) :
    ∀ (l : List PmdDihedralTypeR) (n : ℕ),
      (dihedralTypesFromPmdGoA mm n l).map Prod.fst = (rangeFrom n l.length).map PmdId.dihedT
  | [], _ => rfl
  | dt :: l, n => by
      simp only [dihedralTypesFromPmdGoA, List.map_cons, List.length_cons, rangeFrom,
        map_fst_dihedGoA mm l (n + 1)]

theorem map_fst_dihedGoB (mm : List (PmdId × List String)) (base : ℕ) :
    ∀ (l : List PmdRBTorsionType) (n : ℕ),
      (dihedralTypesFromPmdGoB mm base n l).map Prod.fst = (rangeFrom n l.length).map PmdId.rbT
  | [], _ => rfl
  | rt :: l, n => by
      simp only [dihedralTypesFromPmdGoB, List.map_cons, List.length_cons, rangeFrom,
        map_fst_dihedGoB mm base l (n + 1)]

theorem countP_dihedGoA (mm : List (PmdId × List String)) :
    ∀ (l : List PmdDihedralTypeR) (n k : ℕ),
      (dihedralTypesFromPmdGoA mm n l).countP (fun e => decide (e.1 = PmdId.dihedT k)) =
        if n ≤ k ∧ k < n + l.length then 1 else 0
  | [], n, k => by
      simp only [dihedralTypesFromPmdGoA, List.countP_nil, List.length_nil]
      rw [if_neg (by omega)]
  | dt :: l, n, k => by
      rw [dihedralTypesFromPmdGoA, List.countP_cons, countP_dihedGoA mm l (n + 1) k]
      by_cases he : n = k
      · subst he
        have h1 : ¬ (n + 1 ≤ n ∧ n < n + 1 + l.length) := by omega
        have h2 : n ≤ n ∧ n < n + (dt :: l).length := by
          simp only [List.length_cons]
          omega
        rw [if_neg h1, if_pos h2]
        simp
      · have hd : (decide (PmdId.dihedT n = PmdId.dihedT k)) = false := by
          simpa using he
        simp only [List.length_cons, hd]
        by_cases h1 : n + 1 ≤ k ∧ k < n + 1 + l.length
        · have h2 : n ≤ k ∧ k < n + (l.length + 1) := by omega
          rw [if_pos h1, if_pos h2]
          simp
        · have h2 : ¬ (n ≤ k ∧ k < n + (l.length + 1)) := by omega
          rw [if_neg h1, if_neg h2]
          simp

theorem countP_dihedGoB_dihedT (mm : List (PmdId × List String)) (base : ℕ) :
    ∀ (l : List PmdRBTorsionType) (n k : ℕ),
      (dihedralTypesFromPmdGoB mm base n l).countP (fun e => decide (e.1 = PmdId.dihedT k)) = 0
  | [], _, _ => rfl
  | rt :: l, n, k => by
      rw [dihedralTypesFromPmdGoB, List.countP_cons, countP_dihedGoB_dihedT mm base l (n + 1) k]
      have hd : (decide (PmdId.rbT n = PmdId.dihedT k)) = false := by
        apply decide_eq_false
        intro hcon
        exact PmdId.noConfusion hcon
      simp [hd]

theorem countP_dihedGoA_rbT (mm : List (PmdId × List String)) :
    ∀ (l : List PmdDihedralTypeR) (n k : ℕ),
      (dihedralTypesFromPmdGoA mm n l).countP (fun e => decide (e.1 = PmdId.rbT k)) = 0
  | [], _, _ => rfl
  | dt :: l, n, k => by
      rw [dihedralTypesFromPmdGoA, List.countP_cons, countP_dihedGoA_rbT mm l (n + 1) k]
      have hd : (decide (PmdId.dihedT n = PmdId.rbT k)) = false := by
        apply decide_eq_false
        intro hcon
        exact PmdId.noConfusion hcon
      simp [hd]

theorem countP_dihedGoB_rbT (mm : List (PmdId × List String)) (base : ℕ) :
    ∀ (l : List PmdRBTorsionType) (n k : ℕ),
      (dihedralTypesFromPmdGoB mm base n l).countP (fun e => decide (e.1 = PmdId.rbT k)) =
        if n ≤ k ∧ k < n + l.length then 1 else 0
  | [], n, k => by
      simp only [dihedralTypesFromPmdGoB, List.countP_nil, List.length_nil]
      rw [if_neg (by omega)]
  | rt :: l, n, k => by
      rw [dihedralTypesFromPmdGoB, List.countP_cons, countP_dihedGoB_rbT mm base l (n + 1) k]
      by_cases he : n = k
      · subst he
        have h1 : ¬ (n + 1 ≤ n ∧ n < n + 1 + l.length) := by omega
        have h2 : n ≤ n ∧ n < n + (rt :: l).length := by
          simp only [List.length_cons]
          omega
        rw [if_neg h1, if_pos h2]
        simp
      · have hd : (decide (PmdId.rbT n = PmdId.rbT k)) = false := by
          simpa using he
        simp only [List.length_cons, hd]
        by_cases h1 : n + 1 ≤ k ∧ k < n + 1 + l.length
        · have h2 : n ≤ k ∧ k < n + (l.length + 1) := by omega
          rw [if_pos h1, if_pos h2]
          simp
        · have h2 : ¬ (n ≤ k ∧ k < n + (l.length + 1)) := by omega
          rw [if_neg h1, if_neg h2]
          simp

theorem countP_impGoA (mm : List (PmdId × List String)) :
    ∀ (l : List PmdDihedralTypeR) (n k : ℕ),
      (improperTypesFromPmdGoA mm n l).countP (fun e => decide (e.1 = PmdId.dihedT k)) =
        if n ≤ k ∧ k < n + l.length then 1 else 0
  | [], n, k => by
      simp only [improperTypesFromPmdGoA, List.countP_nil, List.length_nil]
      rw [if_neg (by omega)]
  | dt :: l, n, k => by
      rw [improperTypesFromPmdGoA, List.countP_cons, countP_impGoA mm l (n + 1) k]
      by_cases he : n = k
      · subst he
        have h1 : ¬ (n + 1 ≤ n ∧ n < n + 1 + l.length) := by omega
        have h2 : n ≤ n ∧ n < n + (dt :: l).length := by
          simp only [List.length_cons]
          omega
        rw [if_neg h1, if_pos h2]
        simp
      · have hd : (decide (PmdId.dihedT n = PmdId.dihedT k)) = false := by
          simpa using he
        simp only [List.length_cons, hd]
        by_cases h1 : n + 1 ≤ k ∧ k < n + 1 + l.length
        · have h2 : n ≤ k ∧ k < n + (l.length + 1) := by omega
          rw [if_pos h1, if_pos h2]
          simp
        · have h2 : ¬ (n ≤ k ∧ k < n + (l.length + 1)) := by omega
          rw [if_neg h1, if_neg h2]
          simp

theorem countP_impGoB_dihedT (mm : List (PmdId × List String)) (base : ℕ) :
    ∀ (l : List PmdImproperType) (n k : ℕ),
      (improperTypesFromPmdGoB mm base n l).countP (fun e => decide (e.1 = PmdId.dihedT k)) = 0
  | [], _, _ => rfl
  | it :: l, n, k => by
      rw [improperTypesFromPmdGoB, List.countP_cons, countP_impGoB_dihedT mm base l (n + 1) k]
      have hd : (decide (PmdId.impT n = PmdId.dihedT k)) = false := by
        apply decide_eq_false
        intro hcon
        exact PmdId.noConfusion hcon
      simp [hd]

theorem map_uid_impGoA (mm : List (PmdId × List String)) :
    ∀ (l : List PmdDihedralTypeR) (n : ℕ),
      (improperTypesFromPmdGoA mm n l).map (fun e => e.2.uid) = rangeFrom n l.length
  | [], _ => rfl
  | dt :: l, n => by
      simp only [improperTypesFromPmdGoA, List.map_cons, List.length_cons, rangeFrom,
        map_uid_impGoA mm l (n + 1)]

theorem map_uid_impGoB (mm : List (PmdId × List String)) (base : ℕ) :
    ∀ (l : List PmdImproperType) (n : ℕ),
      (improperTypesFromPmdGoB mm base n l).map (fun e => e.2.uid) = rangeFrom (base + n) l.length
  | [], _ => rfl
  | it :: l, n => by
      have harith : base + n + 1 = base + (n + 1) := by omega
      simp only [improperTypesFromPmdGoB, List.map_cons, List.length_cons, rangeFrom,
        map_uid_impGoB mm base l (n + 1), harith]

theorem map_fst_impGoA (mm : List (PmdId × List String)) :
    ∀ (l : List PmdDihedralTypeR) (n : ℕ),
      (improperTypesFromPmdGoA mm n l).map Prod.fst = (rangeFrom n l.length).map PmdId.dihedT
  | [], _ => rfl
  | dt :: l, n => by
      simp only [improperTypesFromPmdGoA, List.map_cons, List.length_cons, rangeFrom,
        map_fst_impGoA mm l (n + 1)]

theorem map_fst_impGoB (mm : List (PmdId × List String)) (base : ℕ) :
    ∀ (l : List PmdImproperType) (n : ℕ),
      (improperTypesFromPmdGoB mm base n l).map Prod.fst = (rangeFrom n l.length).map PmdId.impT
  | [], _ => rfl
  | it :: l, n => by
      simp only [improperTypesFromPmdGoB, List.map_cons, List.length_cons, rangeFrom,
        map_fst_impGoB mm base l (n + 1)]

theorem except_pure_bind {α β : Type} (a : α) (f : α → Except ConvErr β) :
    (Except.ok a >>= f) = f a := rfl

theorem wf_flat_bound (s : PmdStructure) (hwf : wfS s = true) (a : ℕ)
    (h : a ∈ flatAtoms s) : a < s.atoms.length := by
  have := (List.all_eq_true.mp (wf_parts s hwf).1) a h
  simpa using this

theorem wf_bond_facts (s : PmdStructure) (hwf : wfS s = true) (b : PmdBond)
    (hb : b ∈ s.bonds) :
    b.atom1 ∈ flatAtoms s ∧ b.atom2 ∈ flatAtoms s ∧
      wfRef s.bond_types.length b.type = true := by
  have h := (List.all_eq_true.mp (wf_parts s hwf).2.2.2.1) b hb
  simp only [Bool.and_eq_true] at h
  exact ⟨by simpa using h.1.1, by simpa using h.1.2, h.2⟩

theorem wf_angle_facts (s : PmdStructure) (hwf : wfS s = true) (a : PmdAngle)
    (ha : a ∈ s.angles) :
    a.atom1 ∈ flatAtoms s ∧ a.atom2 ∈ flatAtoms s ∧ a.atom3 ∈ flatAtoms s ∧
      wfRef s.angle_types.length a.type = true := by
  have h := (List.all_eq_true.mp (wf_parts s hwf).2.2.2.2.1) a ha
  simp only [Bool.and_eq_true] at h
  exact ⟨by simpa using h.1.1.1, by simpa using h.1.1.2, by simpa using h.1.2, h.2⟩

theorem wf_dihedral_facts (s : PmdStructure) (hwf : wfS s = true) (d : PmdDihedral)
    (hd : d ∈ s.dihedrals) :
    d.atom1 ∈ flatAtoms s ∧ d.atom2 ∈ flatAtoms s ∧ d.atom3 ∈ flatAtoms s ∧
      d.atom4 ∈ flatAtoms s ∧ wfRef s.dihedral_types.length d.type = true := by
  have h := (List.all_eq_true.mp (wf_parts s hwf).2.2.2.2.2.1) d hd
  simp only [Bool.and_eq_true] at h
  exact ⟨by simpa using h.1.1.1.1, by simpa using h.1.1.1.2, by simpa using h.1.1.2,
    by simpa using h.1.2, h.2⟩

theorem wf_rb_facts (s : PmdStructure) (hwf : wfS s = true) (r : PmdRBTorsion)
    (hr : r ∈ s.rb_torsions) :
    r.atom1 ∈ flatAtoms s ∧ r.atom2 ∈ flatAtoms s ∧ r.atom3 ∈ flatAtoms s ∧
      r.atom4 ∈ flatAtoms s ∧ wfRef s.rb_torsion_types.length r.type = true := by
  have h := (List.all_eq_true.mp (wf_parts s hwf).2.2.2.2.2.2.1) r hr
  simp only [Bool.and_eq_true] at h
  exact ⟨by simpa using h.1.1.1.1, by simpa using h.1.1.1.2, by simpa using h.1.1.2,
    by simpa using h.1.2, h.2⟩

theorem wf_imp_facts (s : PmdStructure) (hwf : wfS s = true) (p : PmdImproper)
    (hp : p ∈ s.impropers) :
    p.atom1 ∈ flatAtoms s ∧ p.atom2 ∈ flatAtoms s ∧ p.atom3 ∈ flatAtoms s ∧
      p.atom4 ∈ flatAtoms s ∧ wfRef s.improper_types.length p.type = true := by
  have h := (List.all_eq_true.mp (wf_parts s hwf).2.2.2.2.2.2.2.1) p hp
  simp only [Bool.and_eq_true] at h
  exact ⟨by simpa using h.1.1.1.1, by simpa using h.1.1.1.2, by simpa using h.1.1.2,
    by simpa using h.1.2, h.2⟩

theorem atMapOf_eq (s : PmdStructure) (rt : Bool) (hwf : wfS s = true) :
    (if rt then atomTypesFromPmd s else Except.ok []) = .ok (atMapOf s rt) := by
  cases rt
  · rfl
  · simp only [if_true, atMapOf, atomTypesFromPmd_ok s hwf]

theorem siteExc_ok (s : PmdStructure) (rt indRes : Bool) (rname : String) (ridx ai : ℕ)
    (hai : ai < s.atoms.length)
    (hcov : rt = true → ∀ i, (nthD defaultPmdAtom s.atoms ai).atom_type = .ref i →
      (lookupN (atMapOf s rt) i).isSome) :
    siteExc s rt (atMapOf s rt) indRes rname ridx ai =
      .ok (mkSite (nthD defaultPmdAtom s.atoms ai) rname ridx indRes
        (siteTypeSpec rt (atMapOf s rt) (nthD defaultPmdAtom s.atoms ai))) := by
  have h1 := getOrErr_ok defaultPmdAtom s.atoms ai hai
  cases rt
  · rcases hat : (nthD defaultPmdAtom s.atoms ai).atom_type with _ | o | i <;>
      simp [siteExc, h1, except_pure_bind, hat, siteTypeSpec]
  · rcases hat : (nthD defaultPmdAtom s.atoms ai).atom_type with _ | o | i
    · simp [siteExc, h1, except_pure_bind, hat, siteTypeSpec]
    · simp [siteExc, h1, except_pure_bind, hat, siteTypeSpec]
    · rcases Option.isSome_iff_exists.mp (hcov rfl i hat) with ⟨t, ht⟩
      simp [siteExc, h1, except_pure_bind, hat, siteTypeSpec, ht]

theorem buildSitesGo_ok (s : PmdStructure) (rt : Bool) (hwf : wfS s = true) :
    ∀ (rl : List PmdResidue) (ridx : ℕ),
      (∀ r ∈ rl, ∀ ai ∈ r.atoms, ai ∈ flatAtoms s) →
      buildSitesGo s rt (atMapOf s rt) (checkIndependentResidues s) ridx rl =
        .ok (sitesSpecGo s rt (atMapOf s rt) (checkIndependentResidues s) ridx rl)
  | [], _, _ => rfl
  | r :: rl, ridx, h => by
      have hres : exMap (siteExc s rt (atMapOf s rt) (checkIndependentResidues s) r.name ridx)
          r.atoms =
          .ok (r.atoms.map (fun ai =>
            mkSite (nthD defaultPmdAtom s.atoms ai) r.name ridx (checkIndependentResidues s)
              (siteTypeSpec rt (atMapOf s rt) (nthD defaultPmdAtom s.atoms ai)))) := by
        apply exMap_ok
        intro ai hai
        have hflat : ai ∈ flatAtoms s := h r (by simp) ai hai
        have hb : ai < s.atoms.length := wf_flat_bound s hwf ai hflat
        apply siteExc_ok s rt (checkIndependentResidues s) r.name ridx ai hb
        intro hrt i hti
        subst hrt
        have hmem : nthD defaultPmdAtom s.atoms ai ∈ s.atoms := nthD_mem _ _ _ hb
        have huniq := ref_mem_uniqueRefs s _ i hmem hti
        have := lookupN_atomTypesTotalGo s.atom_type_records (uniqueAtomTypeRefs s) 0 i huniq
        simpa [atMapOf, atomTypesTotal] using this
      have htl := buildSitesGo_ok s rt hwf rl (ridx + 1)
        (fun r2 hr2 => h r2 (by simp [hr2]))
      simp only [buildSitesGo, hres, except_pure_bind, htl, sitesSpecGo]

theorem buildSites_eq (s : PmdStructure) (rt : Bool) (hwf : wfS s = true) :
    buildSites s rt (atMapOf s rt) (checkIndependentResidues s) = .ok (sitesSpec s rt) := by
  rw [buildSites, sitesSpec]
  apply buildSitesGo_ok s rt hwf
  intro r hr ai hai
  simp only [flatAtoms, List.mem_flatten]
  exact ⟨r.atoms, List.mem_map.mpr ⟨r, hr, rfl⟩, hai⟩

theorem convBond_ok (s : PmdStructure) (rt : Bool) (hwf : wfS s = true) (b : PmdBond)
    (hb : b ∈ s.bonds) : convBond s rt (btMapOf s rt) b = .ok (bondSpec s rt b) := by
  obtain ⟨h1, h2, h3⟩ := wf_bond_facts s hwf b hb
  have e1 := smLookupE_ok s b.atom1 h1
  have e2 := smLookupE_ok s b.atom2 h2
  cases rt
  · rcases hbt : b.type with _ | o | i <;>
      simp [convBond, e1, e2, except_pure_bind, hbt, bondSpec]
  · rcases hbt : b.type with _ | o | i
    · simp [convBond, e1, e2, except_pure_bind, hbt, bondSpec]
    · simp [convBond, e1, e2, except_pure_bind, hbt, bondSpec]
    · have hib : i < s.bond_types.length := by
        rw [hbt] at h3
        simpa [wfRef] using h3
      have hlk := lookupN_bondGo (getTypesMap (bondKeyLab s) s.bonds) s.bond_types 0 i hib
      rw [Nat.zero_add] at hlk
      have hlk2 : (lookupN (btMapOf s true) i).isSome := by
        simpa [btMapOf, bondTypesFromPmd] using hlk
      rcases Option.isSome_iff_exists.mp hlk2 with ⟨t, ht⟩
      simp [convBond, e1, e2, except_pure_bind, hbt, bondSpec, ht]

theorem convAngle_ok (s : PmdStructure) (rt : Bool) (hwf : wfS s = true) (a : PmdAngle)
    (ha : a ∈ s.angles) : convAngle s rt (agMapOf s rt) a = .ok (angleSpec s rt a) := by
  obtain ⟨h1, h2, h3, h4⟩ := wf_angle_facts s hwf a ha
  have e1 := smLookupE_ok s a.atom1 h1
  have e2 := smLookupE_ok s a.atom2 h2
  have e3 := smLookupE_ok s a.atom3 h3
  cases rt
  · rcases hbt : a.type with _ | o | i <;>
      simp [convAngle, e1, e2, e3, except_pure_bind, hbt, angleSpec]
  · rcases hbt : a.type with _ | o | i
    · simp [convAngle, e1, e2, e3, except_pure_bind, hbt, angleSpec]
    · simp [convAngle, e1, e2, e3, except_pure_bind, hbt, angleSpec]
    · have hib : i < s.angle_types.length := by
        rw [hbt] at h4
        simpa [wfRef] using h4
      have hlk := lookupN_angleGo (getTypesMap (angleKeyLab s) s.angles) s.angle_types 0 i hib
      rw [Nat.zero_add] at hlk
      have hlk2 : (lookupN (agMapOf s true) i).isSome := by
        simpa [agMapOf, angleTypesFromPmd] using hlk
      rcases Option.isSome_iff_exists.mp hlk2 with ⟨t, ht⟩
      simp [convAngle, e1, e2, e3, except_pure_bind, hbt, angleSpec, ht]

theorem lookupA_dMapOf_dihedT (s : PmdStructure) (i : ℕ)
    (hib : i < s.dihedral_types.length) :
    (lookupA (dMapOf s true) (.dihedT i)).isSome := by
  have hlk := lookupA_dihedGoA (dihMemberMap s) s.dihedral_types 0 i hib
  rw [Nat.zero_add] at hlk
  rcases Option.isSome_iff_exists.mp hlk with ⟨t, ht⟩
  simp only [dMapOf, if_true, dihedralTypesFromPmd, lookupA_append, ht]
  rfl

theorem lookupA_dMapOf_rbT (s : PmdStructure) (i : ℕ)
    (hib : i < s.rb_torsion_types.length) :
    ∃ T, lookupA (dMapOf s true) (.rbT i) = some T ∧ T.expression = rbExpr := by
  rcases lookupA_dihedGoB (dihMemberMap s) s.dihedral_types.length s.rb_torsion_types 0 i hib
    with ⟨T, hT, hE⟩
  rw [Nat.zero_add] at hT
  refine ⟨T, ?_, hE⟩
  simp only [dMapOf, if_true, dihedralTypesFromPmd, lookupA_append,
    lookupA_dihedGoA_rb, Option.orElse, hT]

theorem lookupA_impMapOf_dihedT (s : PmdStructure) (i : ℕ)
    (hib : i < s.dihedral_types.length) :
    (lookupA (impMapOf s true) (.dihedT i)).isSome := by
  have hlk := lookupA_impGoA (impMemberMap s) s.dihedral_types 0 i hib
  rw [Nat.zero_add] at hlk
  rcases Option.isSome_iff_exists.mp hlk with ⟨t, ht⟩
  simp only [impMapOf, if_true, improperTypesFromPmd, lookupA_append, ht]
  rfl

theorem lookupA_impMapOf_impT (s : PmdStructure) (i : ℕ)
    (hib : i < s.improper_types.length) :
    (lookupA (impMapOf s true) (.impT i)).isSome := by
  have hlk := lookupA_impGoB (impMemberMap s) s.dihedral_types.length s.improper_types 0 i hib
  rw [Nat.zero_add] at hlk
  rcases Option.isSome_iff_exists.mp hlk with ⟨t, ht⟩
  simp only [impMapOf, if_true, improperTypesFromPmd, lookupA_append,
    lookupA_impGoA_imp, Option.orElse, ht]
  rfl

theorem dihedralOfDihedral_ok (s : PmdStructure) (rt : Bool) (hwf : wfS s = true)
    (d : PmdDihedral) (hd : d ∈ s.dihedrals) :
    dihedralOfDihedral s rt (dMapOf s rt) d = .ok (dihedralSpec s rt d) := by
  obtain ⟨h1, h2, h3, h4, h5⟩ := wf_dihedral_facts s hwf d hd
  have e1 := smLookupE_ok s d.atom1 h1
  have e2 := smLookupE_ok s d.atom2 h2
  have e3 := smLookupE_ok s d.atom3 h3
  have e4 := smLookupE_ok s d.atom4 h4
  cases rt
  · rcases hbt : d.type with _ | o | i <;>
      simp [dihedralOfDihedral, e1, e2, e3, e4, except_pure_bind, hbt, dihedralSpec]
  · rcases hbt : d.type with _ | o | i
    · simp [dihedralOfDihedral, e1, e2, e3, e4, except_pure_bind, hbt, dihedralSpec]
    · simp [dihedralOfDihedral, e1, e2, e3, e4, except_pure_bind, hbt, dihedralSpec]
    · have hib : i < s.dihedral_types.length := by
        rw [hbt] at h5
        simpa [wfRef] using h5
      rcases Option.isSome_iff_exists.mp (lookupA_dMapOf_dihedT s i hib) with ⟨t, ht⟩
      simp [dihedralOfDihedral, e1, e2, e3, e4, except_pure_bind, hbt, dihedralSpec, ht]

theorem improperOfDihedral_ok (s : PmdStructure) (rt : Bool) (hwf : wfS s = true)
    (d : PmdDihedral) (hd : d ∈ s.dihedrals) :
    improperOfDihedral s rt (impMapOf s rt) d = .ok (dihImproperSpec s rt d) := by
  obtain ⟨h1, h2, h3, h4, h5⟩ := wf_dihedral_facts s hwf d hd
  have e1 := smLookupE_ok s d.atom1 h1
  have e2 := smLookupE_ok s d.atom2 h2
  have e3 := smLookupE_ok s d.atom3 h3
  have e4 := smLookupE_ok s d.atom4 h4
  cases rt
  · rcases hbt : d.type with _ | o | i <;>
      simp [improperOfDihedral, e1, e2, e3, e4, except_pure_bind, hbt, dihImproperSpec]
  · rcases hbt : d.type with _ | o | i
    · simp [improperOfDihedral, e1, e2, e3, e4, except_pure_bind, hbt, dihImproperSpec]
    · simp [improperOfDihedral, e1, e2, e3, e4, except_pure_bind, hbt, dihImproperSpec]
    · have hib : i < s.dihedral_types.length := by
        rw [hbt] at h5
        simpa [wfRef] using h5
      rcases Option.isSome_iff_exists.mp (lookupA_impMapOf_dihedT s i hib) with ⟨t, ht⟩
      simp [improperOfDihedral, e1, e2, e3, e4, except_pure_bind, hbt, dihImproperSpec, ht]

theorem dihedralOfRb_ok (s : PmdStructure) (rt : Bool) (hwf : wfS s = true)
    (r : PmdRBTorsion) (hr : r ∈ s.rb_torsions) :
    dihedralOfRb s rt (dMapOf s rt) r = .ok (rbSpec s rt r) := by
  obtain ⟨h1, h2, h3, h4, h5⟩ := wf_rb_facts s hwf r hr
  have e1 := smLookupE_ok s r.atom1 h1
  have e2 := smLookupE_ok s r.atom2 h2
  have e3 := smLookupE_ok s r.atom3 h3
  have e4 := smLookupE_ok s r.atom4 h4
  cases rt
  · rcases hbt : r.type with _ | o | i <;>
      simp [dihedralOfRb, e1, e2, e3, e4, except_pure_bind, hbt, rbSpec]
  · rcases hbt : r.type with _ | o | i
    · simp [dihedralOfRb, e1, e2, e3, e4, except_pure_bind, hbt, rbSpec]
    · simp [dihedralOfRb, e1, e2, e3, e4, except_pure_bind, hbt, rbSpec]
    · have hib : i < s.rb_torsion_types.length := by
        rw [hbt] at h5
        simpa [wfRef] using h5
      rcases lookupA_dMapOf_rbT s i hib with ⟨t, ht, _⟩
      simp [dihedralOfRb, e1, e2, e3, e4, except_pure_bind, hbt, rbSpec, ht]

theorem convImproper_ok (s : PmdStructure) (rt : Bool) (hwf : wfS s = true)
    (p : PmdImproper) (hp : p ∈ s.impropers) :
    convImproper s rt (impMapOf s rt) p = .ok (improperSpec s rt p) := by
  obtain ⟨h1, h2, h3, h4, h5⟩ := wf_imp_facts s hwf p hp
  have e1 := smLookupE_ok s p.atom1 h1
  have e2 := smLookupE_ok s p.atom2 h2
  have e3 := smLookupE_ok s p.atom3 h3
  have e4 := smLookupE_ok s p.atom4 h4
  cases rt
  · rcases hbt : p.type with _ | o | i <;>
      simp [convImproper, e1, e2, e3, e4, except_pure_bind, hbt, improperSpec]
  · rcases hbt : p.type with _ | o | i
    · simp [convImproper, e1, e2, e3, e4, except_pure_bind, hbt, improperSpec]
    · simp [convImproper, e1, e2, e3, e4, except_pure_bind, hbt, improperSpec]
    · have hib : i < s.improper_types.length := by
        rw [hbt] at h5
        simpa [wfRef] using h5
      rcases Option.isSome_iff_exists.mp (lookupA_impMapOf_impT s i hib) with ⟨t, ht⟩
      simp [convImproper, e1, e2, e3, e4, except_pure_bind, hbt, improperSpec, ht]

theorem convDihedrals_ok (s : PmdStructure) (rt : Bool) (hwf : wfS s = true) :
    ∀ (dl : List PmdDihedral) (i : ℕ), (∀ d ∈ dl, d ∈ s.dihedrals) →
      convDihedrals s rt (dMapOf s rt) (impMapOf s rt) i dl =
        .ok ((dl.filter (fun d => !d.improper)).map (dihedralSpec s rt),
             (dl.filter (fun d => d.improper)).map (dihImproperSpec s rt),
             warnsGo (fun d => d.improper) ConvWarning.periodicImproper i dl)
  | [], _, _ => rfl
  | d :: dl, i, h => by
      have hd := h d (by simp)
      have ih := convDihedrals_ok s rt hwf dl (i + 1) (fun x hx => h x (by simp [hx]))
      by_cases himp : d.improper = true
      · have hc := improperOfDihedral_ok s rt hwf d hd
        simp only [convDihedrals, himp, if_true, hc, except_pure_bind, ih,
          List.filter_cons, warnsGo]
        simp [himp]
      · have hc := dihedralOfDihedral_ok s rt hwf d hd
        simp only [convDihedrals, himp, if_false, hc, except_pure_bind, ih,
          List.filter_cons, warnsGo]
        simp [himp]

theorem convRbTorsions_ok (s : PmdStructure) (rt : Bool) (hwf : wfS s = true) :
    ∀ (rl : List PmdRBTorsion) (i : ℕ), (∀ r ∈ rl, r ∈ s.rb_torsions) →
      convRbTorsions s rt (dMapOf s rt) i rl =
        .ok (rl.map (rbSpec s rt),
             warnsGo (fun r => r.improper) ConvWarning.rbImproper i rl)
  | [], _, _ => rfl
  | r :: rl, i, h => by
      have hr := h r (by simp)
      have ih := convRbTorsions_ok s rt hwf rl (i + 1) (fun x hx => h x (by simp [hx]))
      have hc := dihedralOfRb_ok s rt hwf r hr
      by_cases himp : r.improper = true <;>
        simp [convRbTorsions, hc, except_pure_bind, ih, warnsGo, himp]

theorem from_parmed_eq (s : PmdStructure) (rt : Bool) (hwf : wfS s = true) :
    from_parmed s rt = .ok (topSpec s rt, warnsSpec s) := by
  have hb : exMap (convBond s rt (btMapOf s rt)) s.bonds =
      .ok (s.bonds.map (bondSpec s rt)) :=
    exMap_ok _ _ _ (fun b hb => convBond_ok s rt hwf b hb)
  have ha : exMap (convAngle s rt (agMapOf s rt)) s.angles =
      .ok (s.angles.map (angleSpec s rt)) :=
    exMap_ok _ _ _ (fun a ha => convAngle_ok s rt hwf a ha)
  have hp : exMap (convImproper s rt (impMapOf s rt)) s.impropers =
      .ok (s.impropers.map (improperSpec s rt)) :=
    exMap_ok _ _ _ (fun p hp => convImproper_ok s rt hwf p hp)
  have hdh := convDihedrals_ok s rt hwf s.dihedrals 0 (fun d hd => hd)
  have hrb := convRbTorsions_ok s rt hwf s.rb_torsions 0 (fun r hr => hr)
  cases rt
  · have hbs := buildSites_eq s false hwf
    have hat : atMapOf s false = [] := rfl
    rw [hat] at hbs
    simp [from_parmed, except_pure_bind, hbs, hb, ha, hdh, hrb, hp, topSpec, warnsSpec]
  · have hbs := buildSites_eq s true hwf
    have hat : atomTypesFromPmd s = .ok (atMapOf s true) := by
      simpa using atMapOf_eq s true hwf
    simp [from_parmed, except_pure_bind, hat, hbs, hb, ha, hdh, hrb, hp, topSpec, warnsSpec]

theorem lookupA_append_singleton {β : Type} (m : List (PmdId × β)) (k k2 : PmdId) (v : β) :
    lookupA (m ++ [(k2, v)]) k =
      (lookupA m k).orElse (fun _ => if k2 = k then some v else none) := by
  rw [lookupA_append]
  rcases lookupA m k with _ | w
  · simp [Option.orElse, lookupA_cons, lookupA]
  · rfl

theorem find?_cons_true {α : Type} (p : α → Bool) (x : α) (xs : List α) (h : p x = true) :
    List.find? p (x :: xs) = some x := by
  rw [List.find?_cons_of_pos _ h]

theorem find?_cons_false {α : Type} (p : α → Bool) (x : α) (xs : List α) (h : p x = false) :
    List.find? p (x :: xs) = List.find? p xs := by
  rw [List.find?_cons_of_neg]
  rw [h]
  simp

theorem getTypesMapGo_lookup {α : Type} (f : α → Option PmdId × List String) (k : PmdId) :
    ∀ (l : List α) (m : List (PmdId × List String)),
      lookupA (getTypesMapGo f m l) k =
        (lookupA m k).orElse (fun _ =>
          (l.find? (fun x => decide ((f x).1 = some k) &&
            (f x).2.all (fun lab => decide (lab ≠ "")))).map (fun x => (f x).2))
  | [], m => by
      rcases h : lookupA m k with _ | v <;> simp [getTypesMapGo, Option.orElse, h]
  | x :: xs, m => by
      rcases hk2 : (f x).1 with _ | k2
      · have hpredf : (decide ((f x).1 = some k) &&
            (f x).2.all (fun lab => decide (lab ≠ ""))) = false := by
          rw [hk2]
          simp
        rw [find?_cons_false (fun y => decide ((f y).1 = some k) &&
          (f y).2.all (fun lab => decide (lab ≠ ""))) x xs hpredf]
        have hgo : getTypesMapGo f m (x :: xs) = getTypesMapGo f m xs := by
          simp only [getTypesMapGo, hk2]
        rw [hgo]
        exact getTypesMapGo_lookup f k xs m
      · by_cases hcond : ((lookupA m k2).isNone &&
            (f x).2.all (fun lab => decide (lab ≠ ""))) = true
        · -- the entry is inserted
          have hins : getTypesMapGo f m (x :: xs) =
              getTypesMapGo f (m ++ [(k2, (f x).2)]) xs := by
            simp only [getTypesMapGo, hk2, hcond, if_true]
          rw [hins, getTypesMapGo_lookup f k xs (m ++ [(k2, (f x).2)]),
            lookupA_append_singleton]
          have hc2 := hcond
          simp only [Bool.and_eq_true, Option.isNone_iff_eq_none] at hc2
          by_cases hke : k2 = k
          · subst hke
            have hpredt : (decide ((f x).1 = some k2) &&
                (f x).2.all (fun lab => decide (lab ≠ ""))) = true := by
              rw [hk2, hc2.2]
              simp
            rw [find?_cons_true (fun y => decide ((f y).1 = some k2) &&
              (f y).2.all (fun lab => decide (lab ≠ ""))) x xs hpredt]
            simp [hc2.1, Option.orElse]
          · have hpredf : (decide ((f x).1 = some k) &&
                (f x).2.all (fun lab => decide (lab ≠ ""))) = false := by
              rw [hk2]
              simp [hke]
            rw [find?_cons_false (fun y => decide ((f y).1 = some k) &&
              (f y).2.all (fun lab => decide (lab ≠ ""))) x xs hpredf]
            rcases hm : lookupA m k with _ | v <;> simp [Option.orElse, hke, hm]
        · -- the entry is skipped
          have hcondf : ((lookupA m k2).isNone &&
              (f x).2.all (fun lab => decide (lab ≠ ""))) = false := by
            rcases hval : ((lookupA m k2).isNone &&
                (f x).2.all (fun lab => decide (lab ≠ ""))) with _ | _
            · rfl
            · exact absurd hval hcond
          have hskip : getTypesMapGo f m (x :: xs) = getTypesMapGo f m xs := by
            simp only [getTypesMapGo, hk2, hcondf]
            rw [if_neg (show ¬ (false = true) by simp)]
          rw [hskip, getTypesMapGo_lookup f k xs m]
          rcases hall : ((f x).2.all (fun lab => decide (lab ≠ ""))) with _ | _
          · have hpredf : (decide ((f x).1 = some k) &&
                (f x).2.all (fun lab => decide (lab ≠ ""))) = false := by
              rw [hall]
              simp
            rw [find?_cons_false (fun y => decide ((f y).1 = some k) &&
              (f y).2.all (fun lab => decide (lab ≠ ""))) x xs hpredf]
          · have hsome : ∃ v, lookupA m k2 = some v := by
              rcases hmk : lookupA m k2 with _ | v
              · rw [hmk, hall] at hcondf
                simp at hcondf
              · exact ⟨v, rfl⟩
            rcases hsome with ⟨v, hv⟩
            by_cases hke : k2 = k
            · subst hke
              have hpredt : (decide ((f x).1 = some k2) &&
                  (f x).2.all (fun lab => decide (lab ≠ ""))) = true := by
                rw [hk2, hall]
                simp
              rw [find?_cons_true (fun y => decide ((f y).1 = some k2) &&
                (f y).2.all (fun lab => decide (lab ≠ ""))) x xs hpredt]
              simp [hv, Option.orElse]
            · have hpredf : (decide ((f x).1 = some k) &&
                  (f x).2.all (fun lab => decide (lab ≠ ""))) = false := by
                rw [hk2]
                simp [hke]
              rw [find?_cons_false (fun y => decide ((f y).1 = some k) &&
                (f y).2.all (fun lab => decide (lab ≠ ""))) x xs hpredf]

theorem mem_of_get? {α : Type} : ∀ (l : List α) (i : ℕ) (x : α), l.get? i = some x → x ∈ l
  | y :: l, 0, x, h => by
      simp only [List.get?_cons_zero] at h
      injection h with h
      subst h
      simp
  | y :: l, i + 1, x, h => by
      have := mem_of_get? l i x (by simpa [List.get?_cons_succ] using h)
      simp [this]

theorem mem_warnsGo {α : Type} (p : α → Bool) (mk : ℕ → ConvWarning) :
    ∀ (l : List α) (i n : ℕ) (x : α), l.get? i = some x → p x = true →
      mk (n + i) ∈ warnsGo p mk n l
  | y :: l, 0, n, x, hg, hp => by
      simp only [List.get?_cons_zero] at hg
      injection hg with h
      subst h
      simp [warnsGo, hp]
  | y :: l, i + 1, n, x, hg, hp => by
      have hg2 : l.get? i = some x := by simpa [List.get?_cons_succ] using hg
      have ih := mem_warnsGo p mk l i (n + 1) x hg2 hp
      have harith : n + 1 + i = n + (i + 1) := by omega
      rw [harith] at ih
      by_cases hpy : p y = true
      · simp [warnsGo, hpy, ih]
      · have hpy2 : p y = false := by
          rcases hv : p y with _ | _
          · rfl
          · exact absurd hv hpy
        simp [warnsGo, hpy2, ih]

theorem sitesSpec_fields (s : PmdStructure) (rt : Bool) :
    ∀ (rl : List PmdResidue) (ridx : ℕ) (st : TopAtom),
      st ∈ sitesSpecGo s rt (atMapOf s rt) (checkIndependentResidues s) ridx rl →
      st.residue.isSome ∧
        st.molecule = (if checkIndependentResidues s then st.residue else none)
  | [], _, st, h => by simp [sitesSpecGo] at h
  | r :: rl, ridx, st, h => by
      rw [sitesSpecGo, List.mem_append] at h
      rcases h with h | h
      · rcases List.mem_map.mp h with ⟨ai, _, hst⟩
        subst hst
        cases hc : checkIndependentResidues s <;> simp [mkSite, hc]
      · exact sitesSpec_fields s rt rl (ridx + 1) st h

theorem list_length_six {γ : Type} (l : List γ) (h : l.length = 6) :
    ∃ a b c d e g, l = [a, b, c, d, e, g] := by
  rcases l with _ | ⟨a, l⟩
  · simp at h
  rcases l with _ | ⟨b, l⟩
  · simp at h
  rcases l with _ | ⟨c, l⟩
  · simp at h
  rcases l with _ | ⟨d, l⟩
  · simp at h
  rcases l with _ | ⟨e, l⟩
  · simp at h
  rcases l with _ | ⟨g, l⟩
  · simp at h
  rcases l with _ | ⟨x, l⟩
  · exact ⟨a, b, c, d, e, g, rfl⟩
  · simp at h

/-! # Claim theorems -/

/-- C7: the member-types map builder records an entry for an
instance exactly when the identity key is not yet present and every
member label is non-empty: for any instance walk, the final binding of
a key is the member tuple of the FIRST instance carrying that key
whose labels are all non-empty (partially resolved instances are
dropped silently), and processing further instances on top of an
existing map never overwrites an existing binding (first-wins). -/
theorem member_types_map_first_wins {α : Type}
    (f : α → Option PmdId × List String) (l xs : List α) (k : PmdId) :
    lookupA (getTypesMap f l) k =
      (l.find? (fun x => decide ((f x).1 = some k) &&
        (f x).2.all (fun lab => decide (lab ≠ "")))).map (fun x => (f x).2) ∧
    lookupA (getTypesMapGo f (getTypesMap f l) xs) k =
      (lookupA (getTypesMap f l) k).orElse (fun _ =>
        (xs.find? (fun x => decide ((f x).1 = some k) &&
          (f x).2.all (fun lab => decide (lab ≠ "")))).map (fun x => (f x).2)) := by
  constructor
  · have h := getTypesMapGo_lookup f k l []
    rw [getTypesMap]
    rw [h]
    simp [lookupA, Option.orElse]
  · exact getTypesMapGo_lookup f k xs (getTypesMap f l)

/-- C6 counterexample: the claim says sites receive molecule
labels if and only if every residue forms an independent CONNECTED
subgraph of the bond graph.  `sC6` has one residue whose induced bond
graph has two components (bonds 0-1 and 2-3): the claimed condition is
false, yet `from_parmed` labels every site with the residue-derived
molecule label, because the source check only compares the residue
atom set with the set of bond partners and never tests connectivity. -/
theorem molecule_label_connectivity_counterexample :
    specIndependentConnected sC6 = false ∧
    (from_parmed sC6 true).map (fun p => p.1.sites.map (fun st => st.molecule)) =
      .ok [some ("R1", 0), some ("R1", 0), some ("R1", 0), some ("R1", 0)] := by
  constructor
  · decide
  · decide

/-- C6 amended: every site carries a residue label, and carries
the residue-derived molecule label if and only if the whole-structure
check passes, where the check passes exactly when each residue either
has no bonded atom at all or the set of bond partners of its atoms
equals its own atom set (no crossing bonds and no isolated atom in a
bonded residue) — connectivity of the residue subgraph is not
required.  When the check fails, no site gets a molecule label. -/
theorem molecule_labels_iff_partner_check (s : PmdStructure) (hwf : wfS s = true)
    (rt : Bool) :
    ∃ t w, from_parmed s rt = .ok (t, w) ∧
      (∀ st ∈ t.sites, st.residue.isSome ∧
        st.molecule = (if checkIndependentResidues s then st.residue else none)) ∧
      (checkIndependentResidues s = true ↔
        ∀ r ∈ s.residues, residuePartners s r = [] ∨
          ((∀ x ∈ r.atoms, x ∈ residuePartners s r) ∧
           (∀ x ∈ residuePartners s r, x ∈ r.atoms))) := by
  refine ⟨topSpec s rt, warnsSpec s, from_parmed_eq s rt hwf, ?_, ?_⟩
  · intro st hst
    have hst2 : st ∈ sitesSpecGo s rt (atMapOf s rt) (checkIndependentResidues s) 0
        s.residues := by
      simpa [topSpec, sitesSpec] using hst
    exact sitesSpec_fields s rt s.residues 0 st hst2
  · simp only [checkIndependentResidues, List.all_eq_true, Bool.or_eq_true,
      List.isEmpty_iff, listSetEq, Bool.and_eq_true]
    constructor
    · intro h r hr
      rcases h r hr with h1 | ⟨h2, h3⟩
      · exact Or.inl h1
      · refine Or.inr ⟨fun x hx => ?_, fun x hx => ?_⟩
        · simpa using h2 x hx
        · simpa using h3 x hx
    · intro h r hr
      rcases h r hr with h1 | ⟨h2, h3⟩
      · exact Or.inl h1
      · exact Or.inr ⟨fun x hx => by simpa using h2 x hx,
          fun x hx => by simpa using h3 x hx⟩

/-- Witness for the amended C6 theorem at a structure with a crossing
bond (`sC6b`): the check fails there, so the conclusion instantiates
to sites with residue labels and no molecule labels. -/
theorem molecule_labels_iff_partner_check_witness :
    ∃ t w, from_parmed sC6b true = .ok (t, w) ∧
      (∀ st ∈ t.sites, st.residue.isSome ∧
        st.molecule = (if checkIndependentResidues sC6b then st.residue else none)) ∧
      (checkIndependentResidues sC6b = true ↔
        ∀ r ∈ sC6b.residues, residuePartners sC6b r = [] ∨
          ((∀ x ∈ r.atoms, x ∈ residuePartners sC6b r) ∧
           (∀ x ∈ residuePartners sC6b r, x ∈ r.atoms))) :=
  molecule_labels_iff_partner_check sC6b (by decide) true

/-- C8: the box of a topology with lengths 2 nm and right angles
converts to the external array `[20, 20, 20, 90, 90, 90]` (angstrom and
degrees) and converts back to exactly 2 nm lengths and 90 degree
angles; exact rational equality implies the claimed 1e-6 relative
tolerance. -/
theorem box_round_trip_exact :
    (to_parmed tC8 true).map (fun sx => sx.box) =
      .ok (some [20, 20, 20, 90, 90, 90]) ∧
    ((to_parmed tC8 true).bind (fun sx => from_parmed sx true)).map (fun p => p.1.box) =
      .ok (some { lx := 2, ly := 2, lz := 2, alpha := 90, beta := 90, gamma := 90 }) := by
  have hb : toParmedBoxArr tC8.box = some [20, 20, 20, 90, 90, 90] := by
    show some [10 * 2, 10 * 2, 10 * 2, (90 : ℚ), (90 : ℚ), (90 : ℚ)] =
      some [20, 20, 20, 90, 90, 90]
    norm_num
  constructor
  · have h1 : (to_parmed tC8 true).map (fun sx => sx.box) =
        .ok (toParmedBoxArr tC8.box) := rfl
    rw [h1, hb]
  · have h2 : ((to_parmed tC8 true).bind (fun sx => from_parmed sx true)).map
        (fun p => p.1.box) = .ok (fromParmedBox (toParmedBoxArr tC8.box)) := rfl
    rw [h2, hb]
    simp only [fromParmedBox]
    rw [if_pos (by decide)]
    simp only [Except.ok.injEq, Option.some.injEq, GBox.mk.injEq]
    norm_num

/-- C9, implicit: `np.all(structure.box)` gates the box import:
when the box array holds at least one zero component, the resulting
topology has no box at all; a box is imported exactly when the array
is present and every component is non-zero. -/
theorem zero_box_left_unset (s : PmdStructure) (hwf : wfS s = true) :
    ∃ t w, from_parmed s true = .ok (t, w) ∧
      ((∃ l, s.box = some l ∧ ∃ x ∈ l, x = 0) → t.box = none) ∧
      (t.box.isSome ↔ ∃ l, s.box = some l ∧ ∀ x ∈ l, x ≠ 0) := by
  refine ⟨topSpec s true, warnsSpec s, from_parmed_eq s true hwf, ?_, ?_⟩
  all_goals simp only [topSpec]
  · rintro ⟨l, hl, x, hx, hx0⟩
    subst hx0
    rw [hl]
    have hall : (l.all (fun y => decide (y ≠ 0))) = false := by
      rcases hv : (l.all (fun y => decide (y ≠ 0))) with _ | _
      · rfl
      · have := List.all_eq_true.mp hv 0 hx
        simp at this
    simp only [fromParmedBox]
    rw [if_neg (show ¬ ((l.all fun y => decide (y ≠ 0)) = true) from by rw [hall]; simp)]
  · rcases hbox : s.box with _ | l
    · simp [fromParmedBox]
    · have hlen : l.length = 6 := by
        have h9 := (wf_parts s hwf).2.2.2.2.2.2.2.2
        rw [hbox] at h9
        simpa using h9
      rcases list_length_six l hlen with ⟨a, b, c, d, e, g, rfl⟩
      rcases hall : ([a, b, c, d, e, g].all (fun y => decide (y ≠ 0))) with _ | _
      · simp only [fromParmedBox]
        rw [if_neg (show ¬ (([a, b, c, d, e, g].all fun y => decide (y ≠ 0)) = true) from by
          rw [hall]; simp)]
        refine iff_of_false (by simp) ?_
        rintro ⟨l2, hl2, hnz⟩
        injection hl2 with hl2
        subst hl2
        have hT : ([a, b, c, d, e, g].all (fun y => decide (y ≠ 0))) = true :=
          List.all_eq_true.mpr (fun x hx => by simpa using hnz x hx)
        rw [hT] at hall
        exact absurd hall (by simp)
      · simp only [fromParmedBox]
        rw [if_pos hall]
        refine iff_of_true (by simp) ?_
        exact ⟨[a, b, c, d, e, g], rfl,
          fun x hx => by simpa using List.all_eq_true.mp hall x hx⟩

/-- Witness for C9 at a structure whose box array ends in a zero
angle: the box is omitted entirely. -/
theorem zero_box_left_unset_witness :
    ∃ t w, from_parmed sC9 true = .ok (t, w) ∧
      ((∃ l, sC9.box = some l ∧ ∃ x ∈ l, x = 0) → t.box = none) ∧
      (t.box.isSome ↔ ∃ l, sC9.box = some l ∧ ∀ x ∈ l, x ≠ 0) :=
  zero_box_left_unset sC9 (by decide)

/-- C2, code bug: the spec catalog (and the DihedralType default
the forward converter itself installs) is the periodic torsion
`k*(1+cos(n*phi-phi_eq))`, but the reverse check at line 783 compares
against `k*(1+cos(n*phi-phi_eq))**2`.  Converting one typed periodic
dihedral forward and straight back therefore aborts with the
format-mismatch error instead of emitting a periodic record, although
the internal type carries exactly the catalog form; the last two
conjuncts certify the two trees are genuinely different functions (at
`k=1, n=0, phi=0, phi_eq=0` with any cosine interpretation sending 0
to 1, they evaluate to 2 and 4). -/
theorem periodic_torsion_reverse_rejected :
    (from_parmed sC2 true).bind (fun p => to_parmed p.1 true) =
      .error (.gmsoError ("msg")) ∧
    (from_parmed sC2 true).map
      (fun p => p.1.dihedrals.map (fun d => (d.dihedral_type).map (fun T => T.expression))) =
      .ok [some periodicTorsionExpr] ∧
    SymExpr.eval vC2 cC2 periodicTorsionExpr = 2 ∧
    SymExpr.eval vC2 cC2 periodicSquaredExpr = 4 := by
  refine ⟨by decide, by decide, ?_, ?_⟩
  · show vC2 ("k") * (1 + cC2 (vC2 ("n") * vC2 ("phi") - vC2 ("phi_eq"))) = 2
    have harg : vC2 ("n") * vC2 ("phi") - vC2 ("phi_eq") = 0 := by
      show (0 : ℚ) * 0 - 0 = 0
      norm_num
    rw [harg]
    show (1 : ℚ) * (1 + cC2 0) = 2
    rw [show cC2 0 = 1 from rfl]
    norm_num
  · show vC2 ("k") * (1 + cC2 (vC2 ("n") * vC2 ("phi") - vC2 ("phi_eq"))) ^ 2 = 4
    have harg : vC2 ("n") * vC2 ("phi") - vC2 ("phi_eq") = 0 := by
      show (0 : ℚ) * 0 - 0 = 0
      norm_num
    rw [harg]
    show (1 : ℚ) * (1 + cC2 0) ^ 2 = 4
    rw [show cC2 0 = 1 from rfl]
    norm_num

/-- C3, code bug: on an unrecognized dihedral expression the
reverse converter does raise at the point of emission and the whole
call aborts, but the error does not list the offending type name: the
source formats the naming message (modelled by
`dihedralTypeMismatchMsg`) and then raises `GMSOError("msg")` — the
literal three-character string — leaving the formatted message
unused. -/
theorem dihedral_mismatch_message_bug :
    to_parmed tC3 true = .error (.gmsoError ("msg")) ∧
    dihedralTypeMismatchMsg ("bad_dihedral_type") =
      "Dihedral type bad_dihedral_type expression does not match Parmed " ++
        "DihedralType default expressions (Periodics, RBTorsions)" ∧
    ("msg" : String) ≠ dihedralTypeMismatchMsg ("bad_dihedral_type") := by
  refine ⟨by decide, by decide, by decide⟩

/-- C1: the forward dihedral-type map (and the improper-type map that
the improper-flagged dihedral walk consumes) is a bijection from raw
record identity to canonical internal type object — keys pairwise
distinct, value objects pairwise distinct, and a record referenced by
any instance owns exactly one entry under its synthesized id, for
periodic and for RB records — and every pair (hence any number) of
same-kind instances referencing one raw record yields internal
connections carrying one and the same internal type object, not
copies, for all three instance walks: non-improper dihedrals, RB
torsions, and improper-flagged dihedrals. -/
theorem dihedral_type_map_is_bijection (s : PmdStructure) (hwf : wfS s = true) :
    ∃ t w, from_parmed s true = .ok (t, w) ∧
      ((dMapOf s true).map (fun e => e.2.uid)).Nodup ∧
      ((dMapOf s true).map Prod.fst).Nodup ∧
      ((impMapOf s true).map (fun e => e.2.uid)).Nodup ∧
      ((impMapOf s true).map Prod.fst).Nodup ∧
      (∀ (k : ℕ) (d : PmdDihedral), d ∈ s.dihedrals → d.type = .ref k →
        (dMapOf s true).countP (fun e => decide (e.1 = PmdId.dihedT k)) = 1 ∧
        (impMapOf s true).countP (fun e => decide (e.1 = PmdId.dihedT k)) = 1) ∧
      (∀ (k : ℕ) (r : PmdRBTorsion), r ∈ s.rb_torsions → r.type = .ref k →
        (dMapOf s true).countP (fun e => decide (e.1 = PmdId.rbT k)) = 1) ∧
      (∀ (k : ℕ) (di dj : PmdDihedral), di ∈ s.dihedrals → dj ∈ s.dihedrals →
        di.improper = false → dj.improper = false →
        di.type = .ref k → dj.type = .ref k →
        ∃ T, lookupA (dMapOf s true) (PmdId.dihedT k) = some T ∧
          (∃ c ∈ t.dihedrals,
            c.connection_members = [smLookup s di.atom1, smLookup s di.atom2,
              smLookup s di.atom3, smLookup s di.atom4] ∧ c.dihedral_type = some T) ∧
          (∃ c ∈ t.dihedrals,
            c.connection_members = [smLookup s dj.atom1, smLookup s dj.atom2,
              smLookup s dj.atom3, smLookup s dj.atom4] ∧ c.dihedral_type = some T)) ∧
      (∀ (k : ℕ) (ri rj : PmdRBTorsion), ri ∈ s.rb_torsions → rj ∈ s.rb_torsions →
        ri.type = .ref k → rj.type = .ref k →
        ∃ T, lookupA (dMapOf s true) (PmdId.rbT k) = some T ∧
          (∃ c ∈ t.dihedrals,
            c.connection_members = [smLookup s ri.atom1, smLookup s ri.atom2,
              smLookup s ri.atom3, smLookup s ri.atom4] ∧ c.dihedral_type = some T) ∧
          (∃ c ∈ t.dihedrals,
            c.connection_members = [smLookup s rj.atom1, smLookup s rj.atom2,
              smLookup s rj.atom3, smLookup s rj.atom4] ∧ c.dihedral_type = some T)) ∧
      (∀ (k : ℕ) (di dj : PmdDihedral), di ∈ s.dihedrals → dj ∈ s.dihedrals →
        di.improper = true → dj.improper = true →
        di.type = .ref k → dj.type = .ref k →
        ∃ T, lookupA (impMapOf s true) (PmdId.dihedT k) = some T ∧
          (∃ c ∈ t.impropers,
            c.connection_members = [smLookup s di.atom1, smLookup s di.atom2,
              smLookup s di.atom3, smLookup s di.atom4] ∧ c.improper_type = some T) ∧
          (∃ c ∈ t.impropers,
            c.connection_members = [smLookup s dj.atom1, smLookup s dj.atom2,
              smLookup s dj.atom3, smLookup s dj.atom4] ∧ c.improper_type = some T)) := by
  refine ⟨topSpec s true, warnsSpec s, from_parmed_eq s true hwf,
    ?_, ?_, ?_, ?_, ?_, ?_, ?_, ?_, ?_⟩
  · have hA := map_uid_dihedGoA (dihMemberMap s) s.dihedral_types 0
    have hB := map_uid_dihedGoB (dihMemberMap s) s.dihedral_types.length s.rb_torsion_types 0
    rw [Nat.add_zero] at hB
    have happ := rangeFrom_append s.rb_torsion_types.length s.dihedral_types.length 0
    rw [Nat.zero_add] at happ
    simp only [dMapOf, if_true, dihedralTypesFromPmd, List.map_append, hA, hB]
    rw [← happ]
    exact nodup_rangeFrom _ _
  · have hA := map_fst_dihedGoA (dihMemberMap s) s.dihedral_types 0
    have hB := map_fst_dihedGoB (dihMemberMap s) s.dihedral_types.length s.rb_torsion_types 0
    simp only [dMapOf, if_true, dihedralTypesFromPmd, List.map_append, hA, hB]
    rw [List.nodup_append]
    refine ⟨(nodup_rangeFrom _ _).map (fun a b h => by injection h),
      (nodup_rangeFrom _ _).map (fun a b h => by injection h), ?_⟩
    intro x hx1 hx2
    rcases List.mem_map.mp hx1 with ⟨a, _, rfl⟩
    rcases List.mem_map.mp hx2 with ⟨b, _, heq⟩
    exact PmdId.noConfusion heq
  · have hA := map_uid_impGoA (impMemberMap s) s.dihedral_types 0
    have hB := map_uid_impGoB (impMemberMap s) s.dihedral_types.length s.improper_types 0
    rw [Nat.add_zero] at hB
    have happ := rangeFrom_append s.improper_types.length s.dihedral_types.length 0
    rw [Nat.zero_add] at happ
    simp only [impMapOf, if_true, improperTypesFromPmd, List.map_append, hA, hB]
    rw [← happ]
    exact nodup_rangeFrom _ _
  · have hA := map_fst_impGoA (impMemberMap s) s.dihedral_types 0
    have hB := map_fst_impGoB (impMemberMap s) s.dihedral_types.length s.improper_types 0
    simp only [impMapOf, if_true, improperTypesFromPmd, List.map_append, hA, hB]
    rw [List.nodup_append]
    refine ⟨(nodup_rangeFrom _ _).map (fun a b h => by injection h),
      (nodup_rangeFrom _ _).map (fun a b h => by injection h), ?_⟩
    intro x hx1 hx2
    rcases List.mem_map.mp hx1 with ⟨a, _, rfl⟩
    rcases List.mem_map.mp hx2 with ⟨b, _, heq⟩
    exact PmdId.noConfusion heq
  · intro k d hd ht
    have hk : k < s.dihedral_types.length := by
      obtain ⟨_, _, _, _, h5⟩ := wf_dihedral_facts s hwf d hd
      rw [ht] at h5
      simpa [wfRef] using h5
    constructor
    · have h1 := countP_dihedGoA (dihMemberMap s) s.dihedral_types 0 k
      rw [if_pos (by omega)] at h1
      have h2 := countP_dihedGoB_dihedT (dihMemberMap s) s.dihedral_types.length
        s.rb_torsion_types 0 k
      simp only [dMapOf, if_true, dihedralTypesFromPmd, List.countP_append, h1, h2]
    · have h1 := countP_impGoA (impMemberMap s) s.dihedral_types 0 k
      rw [if_pos (by omega)] at h1
      have h2 := countP_impGoB_dihedT (impMemberMap s) s.dihedral_types.length
        s.improper_types 0 k
      simp only [impMapOf, if_true, improperTypesFromPmd, List.countP_append, h1, h2]
  · intro k r hr ht
    have hk : k < s.rb_torsion_types.length := by
      obtain ⟨_, _, _, _, h5⟩ := wf_rb_facts s hwf r hr
      rw [ht] at h5
      simpa [wfRef] using h5
    have h1 := countP_dihedGoA_rbT (dihMemberMap s) s.dihedral_types 0 k
    have h2 := countP_dihedGoB_rbT (dihMemberMap s) s.dihedral_types.length
      s.rb_torsion_types 0 k
    rw [if_pos (by omega)] at h2
    simp only [dMapOf, if_true, dihedralTypesFromPmd, List.countP_append, h1, h2]
  · intro k di dj hdi hdj hni hnj hti htj
    have hk : k < s.dihedral_types.length := by
      obtain ⟨_, _, _, _, h5⟩ := wf_dihedral_facts s hwf di hdi
      rw [hti] at h5
      simpa [wfRef] using h5
    rcases Option.isSome_iff_exists.mp (lookupA_dMapOf_dihedT s k hk) with ⟨T, hT⟩
    refine ⟨T, hT, ⟨dihedralSpec s true di, ?_, rfl, ?_⟩,
      ⟨dihedralSpec s true dj, ?_, rfl, ?_⟩⟩
    · simp only [topSpec]
      exact List.mem_append_left _
        (List.mem_map.mpr ⟨di, List.mem_filter.mpr ⟨hdi, by simp [hni]⟩, rfl⟩)
    · simp [dihedralSpec, hti, hT]
    · simp only [topSpec]
      exact List.mem_append_left _
        (List.mem_map.mpr ⟨dj, List.mem_filter.mpr ⟨hdj, by simp [hnj]⟩, rfl⟩)
    · simp [dihedralSpec, htj, hT]
  · intro k ri rj hri hrj hti htj
    have hk : k < s.rb_torsion_types.length := by
      obtain ⟨_, _, _, _, h5⟩ := wf_rb_facts s hwf ri hri
      rw [hti] at h5
      simpa [wfRef] using h5
    rcases lookupA_dMapOf_rbT s k hk with ⟨T, hT, _⟩
    refine ⟨T, hT, ⟨rbSpec s true ri, ?_, rfl, ?_⟩, ⟨rbSpec s true rj, ?_, rfl, ?_⟩⟩
    · simp only [topSpec]
      exact List.mem_append_right _ (List.mem_map.mpr ⟨ri, hri, rfl⟩)
    · simp [rbSpec, hti, hT]
    · simp only [topSpec]
      exact List.mem_append_right _ (List.mem_map.mpr ⟨rj, hrj, rfl⟩)
    · simp [rbSpec, htj, hT]
  · intro k di dj hdi hdj hpi hpj hti htj
    have hk : k < s.dihedral_types.length := by
      obtain ⟨_, _, _, _, h5⟩ := wf_dihedral_facts s hwf di hdi
      rw [hti] at h5
      simpa [wfRef] using h5
    rcases Option.isSome_iff_exists.mp (lookupA_impMapOf_dihedT s k hk) with ⟨T, hT⟩
    refine ⟨T, hT, ⟨dihImproperSpec s true di, ?_, rfl, ?_⟩,
      ⟨dihImproperSpec s true dj, ?_, rfl, ?_⟩⟩
    · simp only [topSpec]
      exact List.mem_append_left _
        (List.mem_map.mpr ⟨di, List.mem_filter.mpr ⟨hdi, by simp [hpi]⟩, rfl⟩)
    · simp [dihImproperSpec, hti, hT]
    · simp only [topSpec]
      exact List.mem_append_left _
        (List.mem_map.mpr ⟨dj, List.mem_filter.mpr ⟨hdj, by simp [hpj]⟩, rfl⟩)
    · simp [dihImproperSpec, htj, hT]

/-- Witness for C1: in `sC1` two plain dihedral instances, two
improper-flagged dihedral instances and two RB torsion instances each
share a single raw type record; the full strengthened conclusion holds
there. -/
theorem dihedral_type_map_is_bijection_witness :
    ∃ t w, from_parmed sC1 true = .ok (t, w) ∧
      ((dMapOf sC1 true).map (fun e => e.2.uid)).Nodup ∧
      ((dMapOf sC1 true).map Prod.fst).Nodup ∧
      ((impMapOf sC1 true).map (fun e => e.2.uid)).Nodup ∧
      ((impMapOf sC1 true).map Prod.fst).Nodup ∧
      (∀ (k : ℕ) (d : PmdDihedral), d ∈ sC1.dihedrals → d.type = .ref k →
        (dMapOf sC1 true).countP (fun e => decide (e.1 = PmdId.dihedT k)) = 1 ∧
        (impMapOf sC1 true).countP (fun e => decide (e.1 = PmdId.dihedT k)) = 1) ∧
      (∀ (k : ℕ) (r : PmdRBTorsion), r ∈ sC1.rb_torsions → r.type = .ref k →
        (dMapOf sC1 true).countP (fun e => decide (e.1 = PmdId.rbT k)) = 1) ∧
      (∀ (k : ℕ) (di dj : PmdDihedral), di ∈ sC1.dihedrals → dj ∈ sC1.dihedrals →
        di.improper = false → dj.improper = false →
        di.type = .ref k → dj.type = .ref k →
        ∃ T, lookupA (dMapOf sC1 true) (PmdId.dihedT k) = some T ∧
          (∃ c ∈ t.dihedrals,
            c.connection_members = [smLookup sC1 di.atom1, smLookup sC1 di.atom2,
              smLookup sC1 di.atom3, smLookup sC1 di.atom4] ∧ c.dihedral_type = some T) ∧
          (∃ c ∈ t.dihedrals,
            c.connection_members = [smLookup sC1 dj.atom1, smLookup sC1 dj.atom2,
              smLookup sC1 dj.atom3, smLookup sC1 dj.atom4] ∧ c.dihedral_type = some T)) ∧
      (∀ (k : ℕ) (ri rj : PmdRBTorsion), ri ∈ sC1.rb_torsions → rj ∈ sC1.rb_torsions →
        ri.type = .ref k → rj.type = .ref k →
        ∃ T, lookupA (dMapOf sC1 true) (PmdId.rbT k) = some T ∧
          (∃ c ∈ t.dihedrals,
            c.connection_members = [smLookup sC1 ri.atom1, smLookup sC1 ri.atom2,
              smLookup sC1 ri.atom3, smLookup sC1 ri.atom4] ∧ c.dihedral_type = some T) ∧
          (∃ c ∈ t.dihedrals,
            c.connection_members = [smLookup sC1 rj.atom1, smLookup sC1 rj.atom2,
              smLookup sC1 rj.atom3, smLookup sC1 rj.atom4] ∧ c.dihedral_type = some T)) ∧
      (∀ (k : ℕ) (di dj : PmdDihedral), di ∈ sC1.dihedrals → dj ∈ sC1.dihedrals →
        di.improper = true → dj.improper = true →
        di.type = .ref k → dj.type = .ref k →
        ∃ T, lookupA (impMapOf sC1 true) (PmdId.dihedT k) = some T ∧
          (∃ c ∈ t.impropers,
            c.connection_members = [smLookup sC1 di.atom1, smLookup sC1 di.atom2,
              smLookup sC1 di.atom3, smLookup sC1 di.atom4] ∧ c.improper_type = some T) ∧
          (∃ c ∈ t.impropers,
            c.connection_members = [smLookup sC1 dj.atom1, smLookup sC1 dj.atom2,
              smLookup sC1 dj.atom3, smLookup sC1 dj.atom4] ∧ c.improper_type = some T)) :=
  dihedral_type_map_is_bijection sC1 (by decide)

/-- C4: an improper-flagged periodic-form dihedral with members
`[a, b, c, d]` becomes an internal Improper whose member tuple keeps
the external order, so its central atom (the first member by the GMSO
convention) is the site of `a`; it contributes no internal Dihedral. -/
theorem periodic_improper_preserves_order (s : PmdStructure) (hwf : wfS s = true)
    (i : ℕ) (d : PmdDihedral) (hd : s.dihedrals.get? i = some d)
    (himp : d.improper = true) :
    ∃ t w, from_parmed s true = .ok (t, w) ∧
      (∃ c ∈ t.impropers,
        c.connection_members = [smLookup s d.atom1, smLookup s d.atom2,
          smLookup s d.atom3, smLookup s d.atom4] ∧
        c.centralAtom = some (smLookup s d.atom1)) ∧
      t.dihedrals.length =
        (s.dihedrals.filter (fun x => !x.improper)).length + s.rb_torsions.length := by
  have hdm : d ∈ s.dihedrals := mem_of_get? _ _ _ hd
  refine ⟨topSpec s true, warnsSpec s, from_parmed_eq s true hwf,
    ⟨dihImproperSpec s true d, ?_, rfl, rfl⟩, ?_⟩
  · simp only [topSpec]
    exact List.mem_append_left _
      (List.mem_map.mpr ⟨d, List.mem_filter.mpr ⟨hdm, himp⟩, rfl⟩)
  · simp [topSpec]

/-- Witness for C4 at `sC4`. -/
theorem periodic_improper_preserves_order_witness :
    ∃ t w, from_parmed sC4 true = .ok (t, w) ∧
      (∃ c ∈ t.impropers,
        c.connection_members = [smLookup sC4 0, smLookup sC4 1,
          smLookup sC4 2, smLookup sC4 3] ∧
        c.centralAtom = some (smLookup sC4 0)) ∧
      t.dihedrals.length =
        (sC4.dihedrals.filter (fun x => !x.improper)).length + sC4.rb_torsions.length :=
  periodic_improper_preserves_order sC4 (by decide) 0
    { atom1 := 0, atom2 := 1, atom3 := 2, atom4 := 3, improper := true, type := .noneRef }
    (by decide) rfl

/-- C5: an improper-flagged RB torsion still becomes an internal
Dihedral carrying an RB-functional-form type — not an Improper (the
improper list receives contributions only from the flagged periodic
dihedrals and the external impropers) — and the conversion emits the
non-fatal advisory warning for it while succeeding. -/
theorem rb_improper_becomes_dihedral (s : PmdStructure) (hwf : wfS s = true)
    (i k : ℕ) (r : PmdRBTorsion) (hr : s.rb_torsions.get? i = some r)
    (himp : r.improper = true) (ht : r.type = .ref k) :
    ∃ t w, from_parmed s true = .ok (t, w) ∧
      (∃ c ∈ t.dihedrals,
        c.connection_members = [smLookup s r.atom1, smLookup s r.atom2,
          smLookup s r.atom3, smLookup s r.atom4] ∧
        ∃ T, c.dihedral_type = some T ∧ T.expression = rbExpr) ∧
      ConvWarning.rbImproper i ∈ w ∧
      t.impropers.length =
        (s.dihedrals.filter (fun x => x.improper)).length + s.impropers.length := by
  have hrm : r ∈ s.rb_torsions := mem_of_get? _ _ _ hr
  have hk : k < s.rb_torsion_types.length := by
    obtain ⟨_, _, _, _, h5⟩ := wf_rb_facts s hwf r hrm
    rw [ht] at h5
    simpa [wfRef] using h5
  rcases lookupA_dMapOf_rbT s k hk with ⟨T, hT, hTe⟩
  refine ⟨topSpec s true, warnsSpec s, from_parmed_eq s true hwf,
    ⟨rbSpec s true r, ?_, rfl, T, ?_, hTe⟩, ?_, ?_⟩
  · simp only [topSpec]
    exact List.mem_append_right _ (List.mem_map.mpr ⟨r, hrm, rfl⟩)
  · simp [rbSpec, ht, hT]
  · simp only [warnsSpec]
    apply List.mem_append_right
    have := mem_warnsGo (fun r => r.improper) ConvWarning.rbImproper s.rb_torsions i 0 r hr himp
    simpa using this
  · simp [topSpec]

/-- Witness for C5 at `sC5`. -/
theorem rb_improper_becomes_dihedral_witness :
    ∃ t w, from_parmed sC5 true = .ok (t, w) ∧
      (∃ c ∈ t.dihedrals,
        c.connection_members = [smLookup sC5 0, smLookup sC5 1,
          smLookup sC5 2, smLookup sC5 3] ∧
        ∃ T, c.dihedral_type = some T ∧ T.expression = rbExpr) ∧
      ConvWarning.rbImproper 0 ∈ w ∧
      t.impropers.length =
        (sC5.dihedrals.filter (fun x => x.improper)).length + sC5.impropers.length :=
  rb_improper_becomes_dihedral sC5 (by decide) 0 0
    { atom1 := 0, atom2 := 1, atom3 := 2, atom4 := 3, improper := true, type := .ref 0 }
    (by decide) rfl rfl

/-- C10, implicit: forward conversion is total over partially
typed and untyped structures: for every connection instance whose type
reference is absent or not an instance of the expected external class,
the conversion still succeeds and creates the corresponding internal
connection with its members mapped in order and no connection type
assigned. -/
theorem untyped_connections_total (s : PmdStructure) (hwf : wfS s = true) :
    ∃ t w, from_parmed s true = .ok (t, w) ∧
      (∀ (i : ℕ) (b : PmdBond), s.bonds.get? i = some b → notRealType b.type →
        t.bonds.get? i = some { connection_members := [smLookup s b.atom1, smLookup s b.atom2],
                                bond_type := none }) ∧
      (∀ (i : ℕ) (a : PmdAngle), s.angles.get? i = some a → notRealType a.type →
        t.angles.get? i = some { connection_members := [smLookup s a.atom1,
          smLookup s a.atom2, smLookup s a.atom3], angle_type := none }) ∧
      (∀ d ∈ s.dihedrals, d.improper = false → notRealType d.type →
        ({ connection_members := [smLookup s d.atom1, smLookup s d.atom2,
           smLookup s d.atom3, smLookup s d.atom4],
           dihedral_type := none } : TopDihedral) ∈ t.dihedrals) ∧
      (∀ d ∈ s.dihedrals, d.improper = true → notRealType d.type →
        ({ connection_members := [smLookup s d.atom1, smLookup s d.atom2,
           smLookup s d.atom3, smLookup s d.atom4],
           improper_type := none } : TopImproper) ∈ t.impropers) ∧
      (∀ r ∈ s.rb_torsions, notRealType r.type →
        ({ connection_members := [smLookup s r.atom1, smLookup s r.atom2,
           smLookup s r.atom3, smLookup s r.atom4],
           dihedral_type := none } : TopDihedral) ∈ t.dihedrals) ∧
      (∀ p ∈ s.impropers, notRealType p.type →
        ({ connection_members := [smLookup s p.atom1, smLookup s p.atom2,
           smLookup s p.atom3, smLookup s p.atom4],
           improper_type := none } : TopImproper) ∈ t.impropers) := by
  refine ⟨topSpec s true, warnsSpec s, from_parmed_eq s true hwf, ?_, ?_, ?_, ?_, ?_, ?_⟩
  · intro i b hb hun
    have hmap : (topSpec s true).bonds.get? i = (s.bonds.get? i).map (bondSpec s true) := by
      simp only [topSpec]
      exact List.get?_map _ _ _
    rw [hmap, hb]
    rcases hun with h | ⟨o, h⟩ <;> simp [bondSpec, h]
  · intro i a ha hun
    have hmap : (topSpec s true).angles.get? i = (s.angles.get? i).map (angleSpec s true) := by
      simp only [topSpec]
      exact List.get?_map _ _ _
    rw [hmap, ha]
    rcases hun with h | ⟨o, h⟩ <;> simp [angleSpec, h]
  · intro d hdm hni hun
    have hmem : dihedralSpec s true d ∈ (topSpec s true).dihedrals := by
      simp only [topSpec]
      exact List.mem_append_left _
        (List.mem_map.mpr ⟨d, List.mem_filter.mpr ⟨hdm, by simp [hni]⟩, rfl⟩)
    have heq : dihedralSpec s true d =
        { connection_members := [smLookup s d.atom1, smLookup s d.atom2,
          smLookup s d.atom3, smLookup s d.atom4], dihedral_type := none } := by
      rcases hun with h | ⟨o, h⟩ <;> simp [dihedralSpec, h]
    rwa [heq] at hmem
  · intro d hdm himp hun
    have hmem : dihImproperSpec s true d ∈ (topSpec s true).impropers := by
      simp only [topSpec]
      exact List.mem_append_left _
        (List.mem_map.mpr ⟨d, List.mem_filter.mpr ⟨hdm, himp⟩, rfl⟩)
    have heq : dihImproperSpec s true d =
        { connection_members := [smLookup s d.atom1, smLookup s d.atom2,
          smLookup s d.atom3, smLookup s d.atom4], improper_type := none } := by
      rcases hun with h | ⟨o, h⟩ <;> simp [dihImproperSpec, h]
    rwa [heq] at hmem
  · intro r hrm hun
    have hmem : rbSpec s true r ∈ (topSpec s true).dihedrals := by
      simp only [topSpec]
      exact List.mem_append_right _ (List.mem_map.mpr ⟨r, hrm, rfl⟩)
    have heq : rbSpec s true r =
        { connection_members := [smLookup s r.atom1, smLookup s r.atom2,
          smLookup s r.atom3, smLookup s r.atom4], dihedral_type := none } := by
      rcases hun with h | ⟨o, h⟩ <;> simp [rbSpec, h]
    rwa [heq] at hmem
  · intro p hpm hun
    have hmem : improperSpec s true p ∈ (topSpec s true).impropers := by
      simp only [topSpec]
      exact List.mem_append_right _ (List.mem_map.mpr ⟨p, hpm, rfl⟩)
    have heq : improperSpec s true p =
        { connection_members := [smLookup s p.atom1, smLookup s p.atom2,
          smLookup s p.atom3, smLookup s p.atom4], improper_type := none } := by
      rcases hun with h | ⟨o, h⟩ <;> simp [improperSpec, h]
    rwa [heq] at hmem

/-- Witness for C10 at `sC10`, whose every connection is untyped or
carries a wrong-class reference. -/
theorem untyped_connections_total_witness :
    ∃ t w, from_parmed sC10 true = .ok (t, w) ∧
      (∀ (i : ℕ) (b : PmdBond), sC10.bonds.get? i = some b → notRealType b.type →
        t.bonds.get? i = some { connection_members := [smLookup sC10 b.atom1, smLookup sC10 b.atom2],
                                bond_type := none }) ∧
      (∀ (i : ℕ) (a : PmdAngle), sC10.angles.get? i = some a → notRealType a.type →
        t.angles.get? i = some { connection_members := [smLookup sC10 a.atom1,
          smLookup sC10 a.atom2, smLookup sC10 a.atom3], angle_type := none }) ∧
      (∀ d ∈ sC10.dihedrals, d.improper = false → notRealType d.type →
        ({ connection_members := [smLookup sC10 d.atom1, smLookup sC10 d.atom2,
           smLookup sC10 d.atom3, smLookup sC10 d.atom4],
           dihedral_type := none } : TopDihedral) ∈ t.dihedrals) ∧
      (∀ d ∈ sC10.dihedrals, d.improper = true → notRealType d.type →
        ({ connection_members := [smLookup sC10 d.atom1, smLookup sC10 d.atom2,
           smLookup sC10 d.atom3, smLookup sC10 d.atom4],
           improper_type := none } : TopImproper) ∈ t.impropers) ∧
      (∀ r ∈ sC10.rb_torsions, notRealType r.type →
        ({ connection_members := [smLookup sC10 r.atom1, smLookup sC10 r.atom2,
           smLookup sC10 r.atom3, smLookup sC10 r.atom4],
           dihedral_type := none } : TopDihedral) ∈ t.dihedrals) ∧
      (∀ p ∈ sC10.impropers, notRealType p.type →
        ({ connection_members := [smLookup sC10 p.atom1, smLookup sC10 p.atom2,
           smLookup sC10 p.atom3, smLookup sC10 p.atom4],
           improper_type := none } : TopImproper) ∈ t.impropers) :=
  untyped_connections_total sC10 (by decide)
